import Mathlib

/-!
# Sequence pooling kernels

A shallow embedding of `paddle/operators/sequence_pool_op.h`: the forward kernel
`SequencePoolKernel::Compute` and the gradient kernel `SequencePoolGradKernel::Compute`.

Modelling conventions.

* A tensor buffer is a flat, row-major memory `Int → α`, addressed by element offset from the
  tensor's data pointer. Entry `(r, c)` of a buffer whose rows hold `w` elements is the element
  at offset `r * w + c`.
* Element type `T` (float or double in the source) is an arbitrary linearly ordered field `α`;
  `std::sqrt` is a parameter `sqrt : α → α`. Results are therefore statements of exact
  arithmetic.
* `int64_t` and `int` values are `Int`, `size_t` values are `Nat`. Row offsets, sizes and
  products of dimensions are taken to lie inside the range of the machine types, so the
  `static_cast`s of the source keep their values.
* A thrown exception or a fault stops the kernel; the buffers keep what was written so far.
-/

namespace paddle.operators

/-- Ways in which a kernel call stops before completion. `shapeError` is a failed
`PADDLE_ENFORCE_*` check (lines 45 to 49), `unsupportedPoolType` is the `PADDLE_THROW` of the
final `else` of the policy dispatch (lines 79 and 140), `undefinedBehaviour` is a fault of the
language itself: the integer division by zero in `numel() / dims[0]` (lines 42 and 96) or
taking element 0 of an empty level-of-detail table (line 95). -/
inductive Failure where
  | shapeError
  | unsupportedPoolType
  | undefinedBehaviour
  deriving DecidableEq, Repr

/-- Result of running imperative code over a state: the state reached and, when the run was cut
short, the failure that stopped it. -/
structure Run (σ : Type) where
  state : σ
  failure : Option Failure

/-- A `framework::LoDTensor`: the dimensions `dims = dims0 :: rest`, the level-of-detail table
`lod` (one list of row offsets per nesting level) and the flat row-major data. -/
structure LoDTensor (α : Type) where
  dims0 : Int
  rest : List Int
  lod : List (List Nat)
  data : Int → α

/-- Number of elements `numel()`: the product of all dimensions. -/
def LoDTensor.numel {α : Type} (t : LoDTensor α) : Int :=
  t.dims0 * t.rest.prod

/-- The row width computed by both kernels, `w = in->numel() / dims[0]` (C++ integer division
truncates; the caller has excluded `dims[0] = 0`). -/
def LoDTensor.width {α : Type} (t : LoDTensor α) : Int :=
  t.numel.tdiv t.dims0

/-- A counted loop `for (int i = 0; i < n; ++i) body` whose body may throw: once an iteration
has failed the remaining iterations are skipped and the state is kept as it was left. -/
def forLoop {σ : Type} (n : Nat) (body : σ → Nat → Run σ) (init : σ) : Run σ :=
  (List.range n).foldl
    (fun run (i : Nat) => match run.failure with
      | none => body run.state i
      | some _ => run)
    ⟨init, none⟩

section Eigen

variable {α : Type}

/-- Assignment to a flattened Eigen vector view of `w` elements that starts at offset `base` of
a buffer: element `c` of the view receives `v c`; the rest of the buffer is untouched. -/
def assignVector (base w : Int) (v : Int → α) (buf : Int → α) : Int → α :=
  fun k => if base ≤ k ∧ k < base + w then v (k - base) else buf k

/-- Assignment to a row-major `h × w` Eigen matrix view (`EigenMatrix<T>::From`, whose storage
order is `Eigen::RowMajor`, lines 28 to 30) that starts at offset `base` of a buffer: entry
`(r, c)`, stored at `base + r * w + c`, receives `m r c`. -/
def assignMatrix (base h w : Int) (m : Int → Int → α) (buf : Int → α) : Int → α :=
  fun k => if base ≤ k ∧ k < base + h * w then m ((k - base) / w) ((k - base) % w) else buf k

/-- Modelled from the spec: `Tensor::Slice(begin, end)` followed by `EigenMatrix<T>::From`, read
as the spec describes it, "take the row slice `input[offsets[i] : offsets[i+1], :]` as an
`h × w` matrix": a row-major view that starts `begin` rows into the buffer. Entry `(r, c)` of
the view is the buffer element at offset `begin * w + (r * w + c)`. -/
def sliceMatrix (data : Int → α) (begin w : Int) : Int → Int → α :=
  fun r c => data (begin * w + (r * w + c))

/-- The view `Eigen::Map<const Eigen::Matrix<T, Dynamic, Dynamic>>(in_t.data<T>(), h, w)` of
lines 124 and 125. `Eigen::Matrix` without a storage option is column-major, so entry `(r, c)`
of this map is the element at offset `c * h + r` from the start of the slice. -/
def colMajorMap (data : Int → α) (begin w h : Int) : Int → Int → α :=
  fun r c => data (begin * w + (c * h + r))

/-- `SetConstant`: fills the `numel` elements of a buffer with `value`. -/
def SetConstant (numel : Int) (value : α) (buf : Int → α) : Int → α :=
  fun k => if 0 ≤ k ∧ k < numel then value else buf k

/-- Reduction `m.sum(axis 0)`: column `c` summed over the `h` rows. -/
def colSum [AddCommMonoid α] (m : Int → Int → α) (h : Int) (c : Int) : α :=
  ∑ r ∈ Finset.range h.toNat, m ((r : Nat) : Int) c

/-- Reduction `m.maximum(axis 0)`: the greatest element of column `c` over the `h` rows, rows
visited in order; `lowest` is the value of the reduction over no rows. -/
def colMax [LinearOrder α] (lowest : α) (m : Int → Int → α) (h : Int) (c : Int) : α :=
  if h ≤ 0 then lowest
  else (List.range (h.toNat - 1)).foldl (fun acc (r : Nat) => max acc (m ((r : Int) + 1) c)) (m 0 c)

/-- The index visitor `col.maxCoeff(&row_id)` over a column of `h` entries: start at index 0 and
move to a later index only when its entry is strictly greater, so the first of several equal
maxima is kept. -/
def maxCoeff [LinearOrder α] (col : Int → α) (h : Int) : Int :=
  (List.range (h.toNat - 1)).foldl
    (fun (best : Int) (r : Nat) =>
      if col best < col ((r : Int) + 1) then (r : Int) + 1 else best) 0

end Eigen

section Kernels

variable {α : Type} [LinearOrderedField α]

/-- Body of the per-sequence loop of `SequencePoolKernel::Compute` (lines 58 to 80), acting on
the data of `Out`. `Out` has been resized to the trailing dimensions of `X`, so its row `i`
(`out->Slice(i, i + 1)`, flattened) is the `w` elements from offset `i * w`.

The body follows the source for every sequence of length `h >= 1`. For a sequence of length 0
it follows the source for SUM (the sum over no rows is 0) and MAX (`lowest`). For LAST and
FIRST the chip row `h - 1 = -1`, respectively `0`, is not a row of the empty slice: the source
indexes out of bounds there, and the body returns the buffer element that the index expression
designates. For AVERAGE and SQRT the source computes `0 / 0`, NaN in `T`, which has no value in
exact arithmetic. What the kernel computes for an empty sequence is therefore stated for SUM
only. -/
def SequencePoolKernel.body (sqrt : α → α) (lowest : α) (pooltype : String)
    (in_data : Int → α) (w : Int) (lod_level_0 : List Nat) (out : Int → α) (i : Nat) :
    Run (Int → α) :=
  let in_e := sliceMatrix in_data (lod_level_0.getD i 0 : Int) w
  let h : Int := (lod_level_0.getD (i + 1) 0 : Int) - (lod_level_0.getD i 0 : Int)
  let out_e := assignVector ((i : Int) * w) w
  if pooltype = "AVERAGE" then
    ⟨out_e (fun c => colSum in_e h c / (h : α)) out, none⟩
  else if pooltype = "SUM" then
    ⟨out_e (fun c => colSum in_e h c) out, none⟩
  else if pooltype = "SQRT" then
    ⟨out_e (fun c => colSum in_e h c / sqrt (h : α)) out, none⟩
  else if pooltype = "MAX" then
    ⟨out_e (fun c => colMax lowest in_e h c) out, none⟩
  else if pooltype = "LAST" then
    ⟨out_e (fun c => in_e (h - 1) c) out, none⟩
  else if pooltype = "FIRST" then
    ⟨out_e (fun c => in_e 0 c) out, none⟩
  else
    ⟨out, some Failure.unsupportedPoolType⟩

/-- The forward kernel `SequencePoolKernel::Compute` (lines 35 to 82). `inp` is `X`, `out` is
`Out` as it is on entry; the result holds `Out` as the call leaves it. The statements are taken
in the order of the source: the division of line 42, the two checks of lines 45 to 49, the
resize of lines 50 and 51, the loop of lines 57 to 81. The batch size
`static_cast<int64_t>(lod[0].size() - 1)` is `length - 1` as an integer (it is -1 for an empty
table); the loop bound `static_cast<int>(size()) - 1` admits `length - 1` iterations, none for
an empty table. `mutable_data` (line 55) hands out the buffer and writes no element. -/
def SequencePoolKernel.Compute (sqrt : α → α) (lowest : α) (inp out : LoDTensor α)
    (pooltype : String) : Run (LoDTensor α) :=
  if inp.dims0 = 0 then ⟨out, some Failure.undefinedBehaviour⟩
  else
    let w := inp.width
    if inp.lod.length ≠ 1 then ⟨out, some Failure.shapeError⟩
    else
      let lod_level_0 := inp.lod.headD []
      if inp.dims0 < (lod_level_0.length : Int) - 1 then ⟨out, some Failure.shapeError⟩
      else
        let resized : LoDTensor α :=
          { out with dims0 := (lod_level_0.length : Int) - 1, rest := inp.rest }
        let run := forLoop (lod_level_0.length - 1)
          (SequencePoolKernel.body sqrt lowest pooltype inp.data w lod_level_0) resized.data
        ⟨{ resized with data := run.state }, run.failure⟩

/-- Body of the per-sequence loop of `SequencePoolGradKernel::Compute` (lines 106 to 141),
acting on the data of `X@GRAD`. `out_g` is the data of `Out@GRAD`, whose row `i` starts at
offset `i * w`. -/
def SequencePoolGradKernel.body (sqrt : α → α) (pooltype : String)
    (in_data out_g : Int → α) (w : Int) (lod : List Nat) (in_g : Int → α) (i : Nat) :
    Run (Int → α) :=
  let h : Int := (lod.getD (i + 1) 0 : Int) - (lod.getD i 0 : Int)
  let in_g_e := assignMatrix ((lod.getD i 0 : Int) * w) h w
  let out_g_e : Int → α := fun c => out_g ((i : Int) * w + c)
  if pooltype = "AVERAGE" then
    ⟨in_g_e (fun _ c => out_g_e c / (h : α)) in_g, none⟩
  else if pooltype = "SUM" then
    ⟨in_g_e (fun _ c => out_g_e c) in_g, none⟩
  else if pooltype = "SQRT" then
    ⟨in_g_e (fun _ c => out_g_e c / sqrt (h : α)) in_g, none⟩
  else if pooltype = "MAX" then
    let in_t_map := colMajorMap in_data (lod.getD i 0 : Int) w h
    ⟨(List.range w.toNat).foldl
      (fun g (col_id : Nat) =>
        let row_id := maxCoeff (fun r => in_t_map r (col_id : Int)) h
        Function.update g ((lod.getD i 0 : Int) * w + (row_id * w + (col_id : Int)))
          (out_g_e (col_id : Int)))
      in_g, none⟩
  else if pooltype = "LAST" then
    ⟨assignVector ((lod.getD i 0 : Int) * w + (h - 1) * w) w out_g_e in_g, none⟩
  else if pooltype = "FIRST" then
    ⟨assignVector ((lod.getD i 0 : Int) * w + 0 * w) w out_g_e in_g, none⟩
  else
    ⟨in_g, some Failure.unsupportedPoolType⟩

/-- The gradient kernel `SequencePoolGradKernel::Compute` (lines 88 to 143). `inp` is `X`,
`out_g` the data of `Out@GRAD`, `in_g` the content of the `X@GRAD` buffer as `mutable_data`
(line 98) hands it out, which does not initialise it; `X@GRAD` has the shape of `X`. The result
is the data of `X@GRAD` as the call leaves it. Line 95 takes `in->lod()[0]` without a check on
the number of levels; lines 99 to 103 clear the buffer for LAST and FIRST only. -/
def SequencePoolGradKernel.Compute (sqrt : α → α) (inp : LoDTensor α) (out_g in_g : Int → α)
    (pooltype : String) : Run (Int → α) :=
  match inp.lod with
  | [] => ⟨in_g, some Failure.undefinedBehaviour⟩
  | lod :: _ =>
    if inp.dims0 = 0 then ⟨in_g, some Failure.undefinedBehaviour⟩
    else
      let w := inp.width
      let cleared :=
        if pooltype = "LAST" ∨ pooltype = "FIRST" then SetConstant inp.numel 0 in_g else in_g
      forLoop (lod.length - 1)
        (SequencePoolGradKernel.body sqrt pooltype inp.data out_g w lod) cleared

end Kernels

/-- An offsets table that is valid, in the sense of the data model, for a buffer of `rows` rows
and has no empty sequence: it has at least one entry, consecutive entries increase strictly
(every length `h = offsets[i+1] - offsets[i]` is at least 1), and every entry is at most
`rows`. -/
def ValidOffsets (offsets : List Nat) (rows : Int) : Prop :=
  1 ≤ offsets.length ∧
  (∀ i < offsets.length - 1, offsets.getD i 0 < offsets.getD (i + 1) 0) ∧
  (∀ i < offsets.length, (offsets.getD i 0 : Int) ≤ rows)

instance (offsets : List Nat) (rows : Int) : Decidable (ValidOffsets offsets rows) := by
  unfold ValidOffsets; infer_instance

/-- A buffer that holds the elements of `l` at offsets `0, 1, ...` and zero elsewhere. -/
def bufOfList {α : Type} [Zero α] (l : List α) : Int → α :=
  fun k => if 0 ≤ k then l.getD k.toNat 0 else 0

/-- Input of the concrete scenario of the specification: feature width 1, offsets `[0, 3]`,
rows `[1, 5, 2]`. -/
def specScenario (α : Type) [LinearOrderedField α] : LoDTensor α :=
  { dims0 := 3, rest := [1], lod := [[0, 3]], data := bufOfList [1, 5, 2] }

/-- Input of the multi-sequence scenario of the specification: feature width 1, offsets
`[0, 2, 5]`, rows `[1, 3, 2, 4, 6]`. -/
def multiScenario (α : Type) [LinearOrderedField α] : LoDTensor α :=
  { dims0 := 5, rest := [1], lod := [[0, 2, 5]], data := bufOfList [1, 3, 2, 4, 6] }

/-- An output tensor as handed to the forward kernel before it is resized. -/
def blankOut (α : Type) [LinearOrderedField α] : LoDTensor α :=
  { dims0 := 0, rest := [], lod := [], data := fun _ => 0 }

/-- The six pooling policies the kernels dispatch on. -/
def supportedPoolTypes : List String :=
  ["AVERAGE", "SUM", "SQRT", "MAX", "LAST", "FIRST"]

/-- An input with no rows and two levels of offsets. -/
def emptyTwoLevel (α : Type) [LinearOrderedField α] : LoDTensor α :=
  { dims0 := 0, rest := [1], lod := [[0], [0]], data := fun _ => 0 }

/-- An input with three rows, feature width 1 and two levels of offsets. -/
def twoLevelScenario (α : Type) [LinearOrderedField α] : LoDTensor α :=
  { dims0 := 3, rest := [1], lod := [[0, 1], [0, 3]], data := bufOfList [1, 5, 2] }

/-- An input with one row, feature width 1 and the offsets `[0, 1, 1, 1]` of three sequences. -/
def crowdedScenario (α : Type) [LinearOrderedField α] : LoDTensor α :=
  { dims0 := 1, rest := [1], lod := [[0, 1, 1, 1]], data := bufOfList [4] }

/-- An input with one row, feature width 1 and a batch of zero sequences (offsets `[0]`). -/
def zeroSequenceScenario (α : Type) [LinearOrderedField α] : LoDTensor α :=
  { dims0 := 1, rest := [1], lod := [[0]], data := bufOfList [4] }

/-- An input with one sequence of two rows and feature width 2: rows `[1, 2]` and `[0, 5]`,
offsets `[0, 2]`. Column 0 holds `1, 0` and column 1 holds `2, 5`. -/
def wideScenario (α : Type) [LinearOrderedField α] : LoDTensor α :=
  { dims0 := 2, rest := [2], lod := [[0, 2]], data := bufOfList [1, 2, 0, 5] }

/-- An input with three rows, feature width 1 and the offsets `[0, 2]`: one sequence of two
rows, while row 2 belongs to no sequence. -/
def partialCoverScenario (α : Type) [LinearOrderedField α] : LoDTensor α :=
  { dims0 := 3, rest := [1], lod := [[0, 2]], data := bufOfList [1, 5, 2] }

/-- The flat offsets that hold the rows of sequence `i` in a buffer whose rows are `w` wide:
`k` lies in `[offsets[i] * w, offsets[i+1] * w)`. -/
def inSlice (lod : List Nat) (w : Int) (i : Nat) (k : Int) : Prop :=
  (lod.getD i 0 : Int) * w ≤ k ∧ k < (lod.getD (i + 1) 0 : Int) * w

/-- The multi-sequence scenario with other rows after sequence 0: offsets `[0, 2, 5]`, rows
`[1, 3, 9, 9, 9]`. -/
def otherTailScenario (α : Type) [LinearOrderedField α] : LoDTensor α :=
  { dims0 := 5, rest := [1], lod := [[0, 2, 5]], data := bufOfList [1, 3, 9, 9, 9] }

/-! ## Loops, views and offsets: auxiliary facts -/

theorem forLoop_zero {σ : Type} (body : σ → Nat → Run σ) (init : σ) :
    forLoop 0 body init = ⟨init, none⟩ := by
  simp [forLoop]

theorem forLoop_succ {σ : Type} (n : Nat) (body : σ → Nat → Run σ) (init : σ) :
    forLoop (n + 1) body init =
      match (forLoop n body init).failure with
      | none => body (forLoop n body init).state n
      | some _ => forLoop n body init := by
  simp [forLoop, List.range_succ, List.foldl_append]

theorem forLoop_total {σ : Type} (body : σ → Nat → Run σ) (init : σ)
    (hbody : ∀ s i, (body s i).failure = none) (n : Nat) :
    (forLoop n body init).failure = none ∧
      (forLoop (n + 1) body init).state = (body (forLoop n body init).state n).state := by
  have hnone : ∀ m, (forLoop m body init).failure = none := by
    intro m
    induction m with
    | zero => simp [forLoop_zero]
    | succ m ih => rw [forLoop_succ, ih]; exact hbody _ _
  refine ⟨hnone n, ?_⟩
  rw [forLoop_succ, hnone n]

theorem forLoop_failure {σ : Type} (body : σ → Nat → Run σ) (init : σ) (f : Failure)
    (hbody : ∀ s i, (body s i).failure ≠ some f) (n : Nat) :
    (forLoop n body init).failure ≠ some f := by
  induction n with
  | zero => simp [forLoop_zero]
  | succ n ih =>
    rw [forLoop_succ]
    cases hf : (forLoop n body init).failure with
    | none => exact hbody _ _
    | some g => simpa [hf] using ih

theorem forLoop_throw {σ : Type} (body : σ → Nat → Run σ) (init : σ) (f : Failure)
    (hbody : ∀ s i, body s i = ⟨s, some f⟩) (n : Nat) :
    forLoop (n + 1) body init = ⟨init, some f⟩ := by
  induction n with
  | zero => rw [forLoop_succ, forLoop_zero]; exact hbody _ _
  | succ n ih => rw [forLoop_succ, ih]

theorem row_index_lt {r r' c w : Int} (hr : r + 1 ≤ r') (hc0 : 0 ≤ c) (hc : c < w) :
    r * w + c < r' * w := by
  have hw : 0 ≤ w := by omega
  have h1 : (r + 1) * w ≤ r' * w := mul_le_mul_of_nonneg_right hr hw
  have h2 : (r + 1) * w = r * w + w := by ring
  omega

theorem assignVector_hit {α : Type} (base w : Int) (v buf : Int → α) {c : Int}
    (hc0 : 0 ≤ c) (hc : c < w) : assignVector base w v buf (base + c) = v c := by
  unfold assignVector
  rw [if_pos (by omega)]
  congr 1
  omega

theorem assignVector_miss {α : Type} (base w : Int) (v buf : Int → α) {k : Int}
    (hk : k < base ∨ base + w ≤ k) : assignVector base w v buf k = buf k := by
  unfold assignVector
  rw [if_neg (by omega)]

theorem assignMatrix_hit {α : Type} (base h w : Int) (m : Int → Int → α) (buf : Int → α)
    {r c : Int} (hr0 : 0 ≤ r) (hr : r < h) (hc0 : 0 ≤ c) (hc : c < w) :
    assignMatrix base h w m buf (base + (r * w + c)) = m r c := by
  unfold assignMatrix
  have hlt : r * w + c < h * w := row_index_lt (by omega) hc0 hc
  have hge : 0 ≤ r * w := mul_nonneg hr0 (by omega)
  rw [if_pos (by omega)]
  have e : base + (r * w + c) - base = c + r * w := by ring
  have hw : w ≠ 0 := by omega
  rw [e, Int.add_mul_ediv_right _ _ hw, Int.add_mul_emod_self, Int.ediv_eq_zero_of_lt hc0 hc,
    Int.emod_eq_of_lt hc0 hc, zero_add]

theorem assignMatrix_miss {α : Type} (base h w : Int) (m : Int → Int → α) (buf : Int → α)
    {k : Int} (hk : k < base ∨ base + h * w ≤ k) : assignMatrix base h w m buf k = buf k := by
  unfold assignMatrix
  rw [if_neg (by omega)]

theorem LoDTensor.width_eq {α : Type} (t : LoDTensor α) (hd : t.dims0 ≠ 0) :
    t.width = t.rest.prod := by
  unfold LoDTensor.width LoDTensor.numel
  exact Int.mul_tdiv_cancel_left _ hd

theorem SetConstant_inside {α : Type} (t : LoDTensor α) (value : α) (buf : Int → α)
    (hd : t.dims0 ≠ 0) {r c : Int} (hr0 : 0 ≤ r) (hr : r < t.dims0) (hc0 : 0 ≤ c)
    (hc : c < t.width) : SetConstant t.numel value buf (r * t.width + c) = value := by
  have hnum : t.numel = t.dims0 * t.width := by
    rw [t.width_eq hd]; rfl
  have h1 : r * t.width + c < t.dims0 * t.width := row_index_lt (by omega) hc0 hc
  have h2 : 0 ≤ r * t.width := mul_nonneg hr0 (by omega)
  unfold SetConstant
  rw [if_pos ⟨by omega, by omega⟩]

theorem ValidOffsets.strictMono {offsets : List Nat} {rows : Int} (hv : ValidOffsets offsets rows)
    {i j : Nat} (hij : i < j) (hj : j < offsets.length) :
    offsets.getD i 0 < offsets.getD j 0 := by
  induction j with
  | zero => omega
  | succ j ih =>
    have hstep := hv.2.1 j (by omega)
    rcases Nat.lt_succ_iff_lt_or_eq.mp hij with h | h
    · exact lt_trans (ih h (by omega)) hstep
    · rw [h]; exact hstep

theorem ValidOffsets.index_le {offsets : List Nat} {rows : Int} (hv : ValidOffsets offsets rows)
    {j : Nat} (hj : j < offsets.length) : j ≤ offsets.getD j 0 := by
  induction j with
  | zero => omega
  | succ j ih =>
    have hstep := hv.2.1 j (by omega)
    have := ih (by omega)
    omega

theorem ValidOffsets.batch_le {offsets : List Nat} {rows : Int} (hv : ValidOffsets offsets rows) :
    (offsets.length : Int) - 1 ≤ rows := by
  have h1 := hv.1
  have h2 := hv.index_le (j := offsets.length - 1) (by omega)
  have h3 := hv.2.2 (offsets.length - 1) (by omega)
  omega

theorem ValidOffsets.rows_pos {offsets : List Nat} {rows : Int} (hv : ValidOffsets offsets rows)
    {i : Nat} (hi : i + 1 < offsets.length) : 0 < rows := by
  have h1 := hv.2.1 i (by omega)
  have h2 := hv.2.2 (i + 1) hi
  omega

theorem forLoop_assignVector {α : Type} (w : Int) (v : Nat → Int → α)
    (body : (Int → α) → Nat → Run (Int → α)) (init : Int → α)
    (hbody : ∀ s i, body s i = ⟨assignVector ((i : Int) * w) w (v i) s, none⟩) (n : Nat) :
    (forLoop n body init).failure = none ∧
      ∀ i < n, ∀ c : Int, 0 ≤ c → c < w → (forLoop n body init).state ((i : Int) * w + c) = v i c := by
  have htot := forLoop_total body init (fun s i => by rw [hbody])
  refine ⟨(htot n).1, ?_⟩
  induction n with
  | zero => intro i hi; omega
  | succ n ih =>
    intro i hi c hc0 hc
    rw [(htot n).2, hbody]
    show assignVector ((n : Int) * w) w (v n) (forLoop n body init).state ((i : Int) * w + c) = v i c
    rcases Nat.lt_succ_iff_lt_or_eq.mp hi with h | h
    · have hlt : (i : Int) * w + c < (n : Int) * w := row_index_lt (by omega) hc0 hc
      rw [assignVector_miss _ _ _ _ (Or.inl hlt)]
      exact ih i h c hc0 hc
    · rw [h]; exact assignVector_hit _ _ _ _ hc0 hc

theorem forLoop_assignRows {α : Type} (w : Int) (t : Nat → Int) (v : Nat → Int → α)
    (body : (Int → α) → Nat → Run (Int → α)) (init : Int → α)
    (hbody : ∀ s i, body s i = ⟨assignVector (t i * w) w (v i) s, none⟩) (n : Nat)
    (hmono : ∀ i j, i < j → j < n → t i < t j) :
    (forLoop n body init).failure = none ∧
      (∀ i < n, ∀ c : Int, 0 ≤ c → c < w → (forLoop n body init).state (t i * w + c) = v i c) ∧
      (∀ r c : Int, 0 ≤ c → c < w → (∀ i < n, r ≠ t i) →
        (forLoop n body init).state (r * w + c) = init (r * w + c)) := by
  have htot := forLoop_total body init (fun s i => by rw [hbody])
  refine ⟨(htot n).1, ?_, ?_⟩
  · induction n with
    | zero => intro i hi; omega
    | succ n ih =>
      intro i hi c hc0 hc
      rw [(htot n).2, hbody]
      show assignVector (t n * w) w (v n) (forLoop n body init).state (t i * w + c) = v i c
      rcases Nat.lt_succ_iff_lt_or_eq.mp hi with h | h
      · have hlt : t i * w + c < t n * w :=
          row_index_lt (by have := hmono i n h (by omega); omega) hc0 hc
        rw [assignVector_miss _ _ _ _ (Or.inl hlt)]
        exact ih (fun a b hab hb => hmono a b hab (by omega)) i h c hc0 hc
      · rw [h]; exact assignVector_hit _ _ _ _ hc0 hc
  · induction n with
    | zero => intro r c _ _ _; rw [forLoop_zero]
    | succ n ih =>
      intro r c hc0 hc hne
      rw [(htot n).2, hbody]
      show assignVector (t n * w) w (v n) (forLoop n body init).state (r * w + c) = init (r * w + c)
      have hrn : r ≠ t n := hne n (by omega)
      have hmiss : r * w + c < t n * w ∨ t n * w + w ≤ r * w + c := by
        rcases lt_or_gt_of_ne hrn with h | h
        · exact Or.inl (row_index_lt (by omega) hc0 hc)
        · right
          have h1 : (t n + 1) * w ≤ r * w := mul_le_mul_of_nonneg_right (by omega) (by omega)
          have h2 : (t n + 1) * w = t n * w + w := by ring
          omega
      rw [assignVector_miss _ _ _ _ hmiss]
      exact ih (fun a b hab hb => hmono a b hab (by omega)) r c hc0 hc
        (fun i hi => hne i (by omega))

theorem forLoop_assignMatrix {α : Type} (w : Int) (lod0 : List Nat) (rows : Int)
    (hvalid : ValidOffsets lod0 rows) (m : Nat → Int → Int → α)
    (body : (Int → α) → Nat → Run (Int → α)) (init : Int → α)
    (hbody : ∀ s i, body s i =
      ⟨assignMatrix ((lod0.getD i 0 : Int) * w)
        ((lod0.getD (i + 1) 0 : Int) - (lod0.getD i 0 : Int)) w (m i) s, none⟩)
    (n : Nat) (hn : n ≤ lod0.length - 1) :
    (forLoop n body init).failure = none ∧
      ∀ i < n, ∀ r : Nat, lod0.getD i 0 ≤ r → r < lod0.getD (i + 1) 0 →
        ∀ c : Int, 0 ≤ c → c < w →
          (forLoop n body init).state ((r : Int) * w + c) =
            m i ((r : Int) - (lod0.getD i 0 : Int)) c := by
  have htot := forLoop_total body init (fun s i => by rw [hbody])
  refine ⟨(htot n).1, ?_⟩
  induction n with
  | zero => intro i hi; omega
  | succ n ih =>
    intro i hi r hr1 hr2 c hc0 hc
    rw [(htot n).2, hbody]
    show assignMatrix ((lod0.getD n 0 : Int) * w)
      ((lod0.getD (n + 1) 0 : Int) - (lod0.getD n 0 : Int)) w (m n)
      (forLoop n body init).state ((r : Int) * w + c) = _
    rcases Nat.lt_succ_iff_lt_or_eq.mp hi with h | h
    · have hle : lod0.getD (i + 1) 0 ≤ lod0.getD n 0 := by
        rcases Nat.lt_or_ge (i + 1) n with h' | h'
        · exact le_of_lt (hvalid.strictMono h' (by omega))
        · have e : i + 1 = n := by omega
          rw [e]
      have hlt : (r : Int) * w + c < (lod0.getD n 0 : Int) * w :=
        row_index_lt (by omega) hc0 hc
      rw [assignMatrix_miss _ _ _ _ _ (Or.inl hlt)]
      exact ih (by omega) i h r hr1 hr2 c hc0 hc
    · subst h
      have e : (r : Int) * w + c =
          (lod0.getD i 0 : Int) * w + (((r : Int) - (lod0.getD i 0 : Int)) * w + c) := by ring
      rw [e]
      exact assignMatrix_hit _ _ _ _ _ (by omega) (by omega) hc0 hc

theorem foldl_max_spec {β : Type} [LinearOrder β] (g : Int → β) (n : Nat) :
    (∀ r : Nat, r ≤ n →
        g r ≤ (List.range n).foldl (fun acc (r : Nat) => max acc (g ((r : Int) + 1))) (g 0)) ∧
      ∃ r : Nat, r ≤ n ∧
        (List.range n).foldl (fun acc (r : Nat) => max acc (g ((r : Int) + 1))) (g 0) = g r := by
  induction n with
  | zero =>
    refine ⟨fun r hr => ?_, 0, le_refl _, by simp⟩
    have : r = 0 := by omega
    subst this
    simp
  | succ n ih =>
    obtain ⟨hle, r0, hr0, heq⟩ := ih
    rw [List.range_succ, List.foldl_append]
    simp only [List.foldl_cons, List.foldl_nil]
    constructor
    · intro r hr
      rcases Nat.lt_succ_iff_lt_or_eq.mp (Nat.lt_succ_of_le hr) with h | h
      · exact le_trans (hle r (by omega)) (le_max_left _ _)
      · subst h
        have : ((n + 1 : Nat) : Int) = (n : Int) + 1 := by push_cast; rfl
        rw [this]
        exact le_max_right _ _
    · rcases max_cases ((List.range n).foldl (fun acc (r : Nat) => max acc (g ((r : Int) + 1))) (g 0))
        (g ((n : Int) + 1)) with h | h
      · exact ⟨r0, by omega, by rw [h.1, heq]⟩
      · refine ⟨n + 1, le_refl _, ?_⟩
        rw [h.1]
        push_cast
        rfl

section Proofs

variable {α : Type} [LinearOrderedField α]

/-! ## The forward kernel: unfolding facts -/

theorem colSum_slice (data : Int → α) (a b : Nat) (w c : Int) :
    colSum (sliceMatrix data (a : Int) w) ((b : Int) - (a : Int)) c =
      ∑ r ∈ Finset.Ico a b, data ((r : Int) * w + c) := by
  unfold colSum sliceMatrix
  rw [Finset.sum_Ico_eq_sum_range]
  have e : ((b : Int) - (a : Int)).toNat = b - a := by omega
  rw [e]
  refine Finset.sum_congr rfl (fun r _ => ?_)
  congr 1
  push_cast
  ring

theorem SequencePoolKernel.pool_Compute_eq (sqrt : α → α) (lowest : α) (inp out : LoDTensor α)
    (pooltype : String) (lod0 : List Nat) (hlod : inp.lod = [lod0]) (hd : inp.dims0 ≠ 0)
    (hb : (lod0.length : Int) - 1 ≤ inp.dims0) :
    SequencePoolKernel.Compute sqrt lowest inp out pooltype =
      ⟨{ dims0 := (lod0.length : Int) - 1, rest := inp.rest, lod := out.lod,
         data := (forLoop (lod0.length - 1)
           (SequencePoolKernel.body sqrt lowest pooltype inp.data inp.width lod0) out.data).state },
       (forLoop (lod0.length - 1)
           (SequencePoolKernel.body sqrt lowest pooltype inp.data inp.width lod0) out.data).failure⟩ := by
  unfold SequencePoolKernel.Compute
  simp [hlod, hd, not_lt.mpr hb]

theorem SequencePoolKernel.pool_body_AVERAGE (sqrt : α → α) (lowest : α) (in_data : Int → α) (w : Int)
    (lod0 : List Nat) (s : Int → α) (i : Nat) :
    SequencePoolKernel.body sqrt lowest "AVERAGE" in_data w lod0 s i =
      ⟨assignVector ((i : Int) * w) w
        (fun c => colSum (sliceMatrix in_data (lod0.getD i 0 : Int) w)
          ((lod0.getD (i + 1) 0 : Int) - (lod0.getD i 0 : Int)) c /
            (((lod0.getD (i + 1) 0 : Int) - (lod0.getD i 0 : Int) : Int) : α)) s, none⟩ := by
  simp [SequencePoolKernel.body]

theorem SequencePoolKernel.pool_body_SUM (sqrt : α → α) (lowest : α) (in_data : Int → α) (w : Int)
    (lod0 : List Nat) (s : Int → α) (i : Nat) :
    SequencePoolKernel.body sqrt lowest "SUM" in_data w lod0 s i =
      ⟨assignVector ((i : Int) * w) w
        (fun c => colSum (sliceMatrix in_data (lod0.getD i 0 : Int) w)
          ((lod0.getD (i + 1) 0 : Int) - (lod0.getD i 0 : Int)) c) s, none⟩ := by
  simp [SequencePoolKernel.body]

theorem SequencePoolKernel.pool_body_SQRT (sqrt : α → α) (lowest : α) (in_data : Int → α) (w : Int)
    (lod0 : List Nat) (s : Int → α) (i : Nat) :
    SequencePoolKernel.body sqrt lowest "SQRT" in_data w lod0 s i =
      ⟨assignVector ((i : Int) * w) w
        (fun c => colSum (sliceMatrix in_data (lod0.getD i 0 : Int) w)
          ((lod0.getD (i + 1) 0 : Int) - (lod0.getD i 0 : Int)) c /
            sqrt (((lod0.getD (i + 1) 0 : Int) - (lod0.getD i 0 : Int) : Int) : α)) s, none⟩ := by
  simp [SequencePoolKernel.body]

theorem SequencePoolKernel.pool_body_MAX (sqrt : α → α) (lowest : α) (in_data : Int → α) (w : Int)
    (lod0 : List Nat) (s : Int → α) (i : Nat) :
    SequencePoolKernel.body sqrt lowest "MAX" in_data w lod0 s i =
      ⟨assignVector ((i : Int) * w) w
        (fun c => colMax lowest (sliceMatrix in_data (lod0.getD i 0 : Int) w)
          ((lod0.getD (i + 1) 0 : Int) - (lod0.getD i 0 : Int)) c) s, none⟩ := by
  simp [SequencePoolKernel.body]

theorem SequencePoolKernel.pool_body_LAST (sqrt : α → α) (lowest : α) (in_data : Int → α) (w : Int)
    (lod0 : List Nat) (s : Int → α) (i : Nat) :
    SequencePoolKernel.body sqrt lowest "LAST" in_data w lod0 s i =
      ⟨assignVector ((i : Int) * w) w
        (fun c => sliceMatrix in_data (lod0.getD i 0 : Int) w
          ((lod0.getD (i + 1) 0 : Int) - (lod0.getD i 0 : Int) - 1) c) s, none⟩ := by
  simp [SequencePoolKernel.body]

theorem SequencePoolKernel.pool_body_FIRST (sqrt : α → α) (lowest : α) (in_data : Int → α) (w : Int)
    (lod0 : List Nat) (s : Int → α) (i : Nat) :
    SequencePoolKernel.body sqrt lowest "FIRST" in_data w lod0 s i =
      ⟨assignVector ((i : Int) * w) w
        (fun c => sliceMatrix in_data (lod0.getD i 0 : Int) w 0 c) s, none⟩ := by
  simp [SequencePoolKernel.body]

theorem SequencePoolKernel.pool_body_supported (sqrt : α → α) (lowest : α) (pooltype : String)
    (hp : pooltype ∈ supportedPoolTypes) (in_data : Int → α) (w : Int) (lod0 : List Nat)
    (s : Int → α) (i : Nat) :
    (SequencePoolKernel.body sqrt lowest pooltype in_data w lod0 s i).failure = none := by
  simp only [supportedPoolTypes, List.mem_cons, List.mem_singleton, List.not_mem_nil,
    or_false] at hp
  rcases hp with h | h | h | h | h | h <;> subst h <;> simp [SequencePoolKernel.body]

theorem SequencePoolKernel.pool_body_unsupported (sqrt : α → α) (lowest : α) (pooltype : String)
    (hp : pooltype ∉ supportedPoolTypes) (in_data : Int → α) (w : Int) (lod0 : List Nat)
    (s : Int → α) (i : Nat) :
    SequencePoolKernel.body sqrt lowest pooltype in_data w lod0 s i =
      ⟨s, some Failure.unsupportedPoolType⟩ := by
  simp only [supportedPoolTypes, List.mem_cons, List.mem_singleton, List.not_mem_nil,
    or_false, not_or] at hp
  obtain ⟨h1, h2, h3, h4, h5, h6⟩ := hp
  simp [SequencePoolKernel.body, h1, h2, h3, h4, h5, h6]

theorem SequencePoolKernel.pool_body_failure (sqrt : α → α) (lowest : α) (pooltype : String)
    (in_data : Int → α) (w : Int) (lod0 : List Nat) (s : Int → α) (i : Nat) :
    (SequencePoolKernel.body sqrt lowest pooltype in_data w lod0 s i).failure ≠
      some Failure.shapeError := by
  by_cases hp : pooltype ∈ supportedPoolTypes
  · rw [SequencePoolKernel.pool_body_supported sqrt lowest pooltype hp]; simp
  · rw [SequencePoolKernel.pool_body_unsupported sqrt lowest pooltype hp]; simp

theorem SequencePoolKernel.forward_entry (sqrt : α → α) (lowest : α) (inp out : LoDTensor α)
    (pooltype : String) (lod0 : List Nat) (v : Nat → Int → α)
    (hlod : inp.lod = [lod0]) (hvalid : ValidOffsets lod0 inp.dims0)
    (hbody : ∀ s i, SequencePoolKernel.body sqrt lowest pooltype inp.data inp.width lod0 s i =
      ⟨assignVector ((i : Int) * inp.width) inp.width (v i) s, none⟩)
    (i : Nat) (hi : i + 1 < lod0.length) (c : Int) (hc0 : 0 ≤ c) (hc : c < inp.width) :
    (SequencePoolKernel.Compute sqrt lowest inp out pooltype).failure = none ∧
      (SequencePoolKernel.Compute sqrt lowest inp out pooltype).state.data
        ((i : Int) * inp.width + c) = v i c := by
  have hd : inp.dims0 ≠ 0 := ne_of_gt (hvalid.rows_pos hi)
  rw [SequencePoolKernel.pool_Compute_eq sqrt lowest inp out pooltype lod0 hlod hd hvalid.batch_le]
  have := forLoop_assignVector inp.width v _ out.data hbody (lod0.length - 1)
  exact ⟨this.1, this.2 i (by omega) c hc0 hc⟩

/-! ## The gradient kernel: unfolding facts -/

theorem SequencePoolGradKernel.grad_Compute_eq (sqrt : α → α) (inp : LoDTensor α)
    (out_g in_g : Int → α) (pooltype : String) (lod0 : List Nat) (levels : List (List Nat))
    (hlod : inp.lod = lod0 :: levels) (hd : inp.dims0 ≠ 0) :
    SequencePoolGradKernel.Compute sqrt inp out_g in_g pooltype =
      forLoop (lod0.length - 1)
        (SequencePoolGradKernel.body sqrt pooltype inp.data out_g inp.width lod0)
        (if pooltype = "LAST" ∨ pooltype = "FIRST" then SetConstant inp.numel 0 in_g
          else in_g) := by
  unfold SequencePoolGradKernel.Compute
  rw [hlod]
  simp only
  rw [if_neg hd]

theorem SequencePoolGradKernel.grad_body_AVERAGE (sqrt : α → α) (in_data out_g : Int → α) (w : Int)
    (lod0 : List Nat) (s : Int → α) (i : Nat) :
    SequencePoolGradKernel.body sqrt "AVERAGE" in_data out_g w lod0 s i =
      ⟨assignMatrix ((lod0.getD i 0 : Int) * w)
        ((lod0.getD (i + 1) 0 : Int) - (lod0.getD i 0 : Int)) w
        (fun _ c => out_g ((i : Int) * w + c) /
          (((lod0.getD (i + 1) 0 : Int) - (lod0.getD i 0 : Int) : Int) : α)) s, none⟩ := by
  simp [SequencePoolGradKernel.body]

theorem SequencePoolGradKernel.grad_body_SUM (sqrt : α → α) (in_data out_g : Int → α) (w : Int)
    (lod0 : List Nat) (s : Int → α) (i : Nat) :
    SequencePoolGradKernel.body sqrt "SUM" in_data out_g w lod0 s i =
      ⟨assignMatrix ((lod0.getD i 0 : Int) * w)
        ((lod0.getD (i + 1) 0 : Int) - (lod0.getD i 0 : Int)) w
        (fun _ c => out_g ((i : Int) * w + c)) s, none⟩ := by
  simp [SequencePoolGradKernel.body]

theorem SequencePoolGradKernel.grad_body_SQRT (sqrt : α → α) (in_data out_g : Int → α) (w : Int)
    (lod0 : List Nat) (s : Int → α) (i : Nat) :
    SequencePoolGradKernel.body sqrt "SQRT" in_data out_g w lod0 s i =
      ⟨assignMatrix ((lod0.getD i 0 : Int) * w)
        ((lod0.getD (i + 1) 0 : Int) - (lod0.getD i 0 : Int)) w
        (fun _ c => out_g ((i : Int) * w + c) /
          sqrt (((lod0.getD (i + 1) 0 : Int) - (lod0.getD i 0 : Int) : Int) : α)) s, none⟩ := by
  simp [SequencePoolGradKernel.body]

theorem SequencePoolGradKernel.grad_body_LAST (sqrt : α → α) (in_data out_g : Int → α) (w : Int)
    (lod0 : List Nat) (s : Int → α) (i : Nat) :
    SequencePoolGradKernel.body sqrt "LAST" in_data out_g w lod0 s i =
      ⟨assignVector (((lod0.getD (i + 1) 0 : Int) - 1) * w) w
        (fun c => out_g ((i : Int) * w + c)) s, none⟩ := by
  have e : (lod0.getD i 0 : Int) * w +
      ((lod0.getD (i + 1) 0 : Int) - (lod0.getD i 0 : Int) - 1) * w =
      ((lod0.getD (i + 1) 0 : Int) - 1) * w := by ring
  simp only [SequencePoolGradKernel.body, e]
  simp

theorem SequencePoolGradKernel.grad_body_FIRST (sqrt : α → α) (in_data out_g : Int → α) (w : Int)
    (lod0 : List Nat) (s : Int → α) (i : Nat) :
    SequencePoolGradKernel.body sqrt "FIRST" in_data out_g w lod0 s i =
      ⟨assignVector ((lod0.getD i 0 : Int) * w) w
        (fun c => out_g ((i : Int) * w + c)) s, none⟩ := by
  simp [SequencePoolGradKernel.body]

theorem SequencePoolGradKernel.grad_body_supported (sqrt : α → α) (pooltype : String)
    (hp : pooltype ∈ supportedPoolTypes) (in_data out_g : Int → α) (w : Int) (lod0 : List Nat)
    (s : Int → α) (i : Nat) :
    (SequencePoolGradKernel.body sqrt pooltype in_data out_g w lod0 s i).failure = none := by
  simp only [supportedPoolTypes, List.mem_cons, List.mem_singleton, List.not_mem_nil,
    or_false] at hp
  rcases hp with h | h | h | h | h | h <;> subst h <;> simp [SequencePoolGradKernel.body]

theorem SequencePoolGradKernel.grad_body_unsupported (sqrt : α → α) (pooltype : String)
    (hp : pooltype ∉ supportedPoolTypes) (in_data out_g : Int → α) (w : Int) (lod0 : List Nat)
    (s : Int → α) (i : Nat) :
    SequencePoolGradKernel.body sqrt pooltype in_data out_g w lod0 s i =
      ⟨s, some Failure.unsupportedPoolType⟩ := by
  simp only [supportedPoolTypes, List.mem_cons, List.mem_singleton, List.not_mem_nil,
    or_false, not_or] at hp
  obtain ⟨h1, h2, h3, h4, h5, h6⟩ := hp
  simp [SequencePoolGradKernel.body, h1, h2, h3, h4, h5, h6]

/-! ## Slices, arg-max and sums: auxiliary facts -/

theorem forLoop_state_of_throw {σ : Type} (body : σ → Nat → Run σ) (init : σ) (f : Failure)
    (hbody : ∀ s i, body s i = ⟨s, some f⟩) (n : Nat) :
    (forLoop n body init).state = init := by
  cases n with
  | zero => rw [forLoop_zero]
  | succ n => rw [forLoop_throw body init f hbody]

theorem SequencePoolGradKernel.grad_matrix_entry (sqrt : α → α) (inp : LoDTensor α)
    (out_g in_g : Int → α) (pooltype : String) (lod0 : List Nat) (levels : List (List Nat))
    (hlod : inp.lod = lod0 :: levels) (hvalid : ValidOffsets lod0 inp.dims0)
    (hno : ¬ (pooltype = "LAST" ∨ pooltype = "FIRST")) (m : Nat → Int → Int → α)
    (hbody : ∀ s i, SequencePoolGradKernel.body sqrt pooltype inp.data out_g inp.width lod0 s i =
      ⟨assignMatrix ((lod0.getD i 0 : Int) * inp.width)
        ((lod0.getD (i + 1) 0 : Int) - (lod0.getD i 0 : Int)) inp.width (m i) s, none⟩)
    (i : Nat) (hi : i + 1 < lod0.length) (r : Nat) (hr1 : lod0.getD i 0 ≤ r)
    (hr2 : r < lod0.getD (i + 1) 0) (c : Int) (hc0 : 0 ≤ c) (hc : c < inp.width) :
    (SequencePoolGradKernel.Compute sqrt inp out_g in_g pooltype).failure = none ∧
      (SequencePoolGradKernel.Compute sqrt inp out_g in_g pooltype).state
        ((r : Int) * inp.width + c) = m i ((r : Int) - (lod0.getD i 0 : Int)) c := by
  have hd : inp.dims0 ≠ 0 := ne_of_gt (hvalid.rows_pos hi)
  rw [SequencePoolGradKernel.grad_Compute_eq sqrt inp out_g in_g pooltype lod0 levels hlod hd,
    if_neg hno]
  have := forLoop_assignMatrix inp.width lod0 inp.dims0 hvalid m _ in_g hbody (lod0.length - 1)
    (le_refl _)
  exact ⟨this.1, this.2 i (by omega) r hr1 hr2 c hc0 hc⟩

theorem offsets_covered (offsets : List Nat) (r : Nat) (n : Nat) (hr1 : offsets.getD 0 0 ≤ r)
    (hr2 : r < offsets.getD n 0) :
    ∃ i, i < n ∧ offsets.getD i 0 ≤ r ∧ r < offsets.getD (i + 1) 0 := by
  induction n with
  | zero => omega
  | succ n ih =>
    rcases Nat.lt_or_ge r (offsets.getD n 0) with h | h
    · obtain ⟨i, hi, h1, h2⟩ := ih h
      exact ⟨i, by omega, h1, h2⟩
    · exact ⟨n, by omega, h, hr2⟩

theorem maxCoeff_fold_range {β : Type} [LinearOrder β] (col : Int → β) (n : Nat) :
    0 ≤ (List.range n).foldl
        (fun (best : Int) (r : Nat) =>
          if col best < col ((r : Int) + 1) then (r : Int) + 1 else best) 0 ∧
      (List.range n).foldl
        (fun (best : Int) (r : Nat) =>
          if col best < col ((r : Int) + 1) then (r : Int) + 1 else best) 0 ≤ (n : Int) := by
  induction n with
  | zero => simp
  | succ n ih =>
    rw [List.range_succ, List.foldl_append]
    simp only [List.foldl_cons, List.foldl_nil]
    split_ifs
    · push_cast; omega
    · push_cast; omega

theorem maxCoeff_range {β : Type} [LinearOrder β] (col : Int → β) (h : Int) (hh : 1 ≤ h) :
    0 ≤ maxCoeff col h ∧ maxCoeff col h < h := by
  have := maxCoeff_fold_range col (h.toNat - 1)
  unfold maxCoeff
  omega

theorem maxCoeff_fold_congr {β : Type} [LinearOrder β] (col col' : Int → β) (n : Nat)
    (hcol : ∀ r : Int, 0 ≤ r → r ≤ (n : Int) → col r = col' r) :
    (List.range n).foldl
        (fun (best : Int) (r : Nat) =>
          if col best < col ((r : Int) + 1) then (r : Int) + 1 else best) 0 =
      (List.range n).foldl
        (fun (best : Int) (r : Nat) =>
          if col' best < col' ((r : Int) + 1) then (r : Int) + 1 else best) 0 := by
  induction n with
  | zero => simp
  | succ n ih =>
    have hprev := ih (fun r hr0 hr => hcol r hr0 (by push_cast; omega))
    have hb := maxCoeff_fold_range col' n
    rw [List.range_succ, List.foldl_append, List.foldl_append, hprev]
    simp only [List.foldl_cons, List.foldl_nil]
    rw [hcol _ hb.1 (by push_cast; omega), hcol ((n : Int) + 1) (by omega) (by push_cast; omega)]

theorem maxCoeff_congr {β : Type} [LinearOrder β] (col col' : Int → β) (h : Int)
    (hcol : ∀ r : Int, 0 ≤ r → r < h → col r = col' r) :
    maxCoeff col h = maxCoeff col' h := by
  unfold maxCoeff
  rcases Nat.eq_zero_or_pos (h.toNat - 1) with h0 | h0
  · rw [h0]; rfl
  · exact maxCoeff_fold_congr col col' _ (fun r hr0 hr => hcol r hr0 (by omega))

theorem foldl_update_miss {β : Type} (idx : Nat → Int) (val : Nat → β) (g : Int → β) (n : Nat)
    (k : Int) (hk : ∀ c < n, k ≠ idx c) :
    (List.range n).foldl (fun g (c : Nat) => Function.update g (idx c) (val c)) g k = g k := by
  induction n with
  | zero => simp
  | succ n ih =>
    rw [List.range_succ, List.foldl_append]
    simp only [List.foldl_cons, List.foldl_nil]
    rw [Function.update_noteq (hk n (by omega))]
    exact ih (fun c hc => hk c (by omega))

theorem foldl_update_hit {β : Type} (idx : Nat → Int) (val : Nat → β) (g : Int → β) (n : Nat)
    (hinj : ∀ c c', c < n → c' < n → idx c = idx c' → c = c') (c : Nat) (hc : c < n) :
    (List.range n).foldl (fun g (c : Nat) => Function.update g (idx c) (val c)) g (idx c) =
      val c := by
  induction n with
  | zero => omega
  | succ n ih =>
    rw [List.range_succ, List.foldl_append]
    simp only [List.foldl_cons, List.foldl_nil]
    rcases Nat.lt_succ_iff_lt_or_eq.mp hc with h | h
    · have hne : idx c ≠ idx n := fun e => by
        have := hinj c n (by omega) (by omega) e
        omega
      rw [Function.update_noteq hne]
      exact ih (fun a b ha hb => hinj a b (by omega) (by omega)) h
    · rw [h, Function.update_same]

theorem foldl_update_pointwise {β : Type} (idx : Nat → Int) (val : Nat → β) (g g' : Int → β)
    (n : Nat) (k : Int) (hk : g k = g' k) :
    (List.range n).foldl (fun g (c : Nat) => Function.update g (idx c) (val c)) g k =
      (List.range n).foldl (fun g (c : Nat) => Function.update g (idx c) (val c)) g' k := by
  induction n with
  | zero => simpa using hk
  | succ n ih =>
    rw [List.range_succ, List.foldl_append, List.foldl_append]
    simp only [List.foldl_cons, List.foldl_nil]
    by_cases e : k = idx n
    · rw [e, Function.update_same, Function.update_same]
    · rw [Function.update_noteq e, Function.update_noteq e]
      exact ih

theorem SequencePoolGradKernel.grad_body_MAX (sqrt : α → α) (in_data out_g : Int → α) (w : Int)
    (lod0 : List Nat) (s : Int → α) (i : Nat) :
    SequencePoolGradKernel.body sqrt "MAX" in_data out_g w lod0 s i =
      ⟨(List.range w.toNat).foldl
        (fun g (col_id : Nat) =>
          Function.update g
            ((lod0.getD i 0 : Int) * w +
              (maxCoeff (fun r => colMajorMap in_data (lod0.getD i 0 : Int) w
                  ((lod0.getD (i + 1) 0 : Int) - (lod0.getD i 0 : Int)) r (col_id : Int))
                ((lod0.getD (i + 1) 0 : Int) - (lod0.getD i 0 : Int)) * w + (col_id : Int)))
            (out_g ((i : Int) * w + (col_id : Int))))
        s, none⟩ := by
  simp [SequencePoolGradKernel.body]

theorem inSlice_of_row (lod0 : List Nat) (w : Int) (i : Nat) (r : Nat) (c : Int)
    (hr1 : lod0.getD i 0 ≤ r) (hr2 : r < lod0.getD (i + 1) 0) (hc0 : 0 ≤ c) (hc : c < w) :
    inSlice lod0 w i ((r : Int) * w + c) := by
  have h1 : (lod0.getD i 0 : Int) * w ≤ (r : Int) * w :=
    mul_le_mul_of_nonneg_right (by omega) (by omega)
  have h2 : (r : Int) * w + c < (lod0.getD (i + 1) 0 : Int) * w :=
    row_index_lt (by omega) hc0 hc
  exact ⟨by omega, h2⟩

theorem inSlice_width_pos {lod0 : List Nat} {rows : Int} (hvalid : ValidOffsets lod0 rows)
    {w : Int} {i : Nat} {k : Int} (hi : i + 1 < lod0.length) (hk : inSlice lod0 w i k) :
    0 < w := by
  have hstep := hvalid.2.1 i (by omega)
  by_contra hw
  have h1 : ((lod0.getD (i + 1) 0 : Int) - (lod0.getD i 0 : Int)) * w ≤ 0 :=
    mul_nonpos_of_nonneg_of_nonpos (by omega) (by omega)
  have h2 : ((lod0.getD (i + 1) 0 : Int) - (lod0.getD i 0 : Int)) * w =
      (lod0.getD (i + 1) 0 : Int) * w - (lod0.getD i 0 : Int) * w := by ring
  have := hk.1
  have := hk.2
  omega

theorem inSlice_disjoint {lod0 : List Nat} {rows : Int} (hvalid : ValidOffsets lod0 rows)
    {w : Int} {i j : Nat} {k : Int} (hij : i < j) (hj : j + 1 < lod0.length)
    (hi : inSlice lod0 w i k) : ¬ inSlice lod0 w j k := by
  intro hjk
  have hw := inSlice_width_pos hvalid (by omega) hi
  have hle : lod0.getD (i + 1) 0 ≤ lod0.getD j 0 := by
    rcases Nat.lt_or_ge (i + 1) j with h' | h'
    · exact le_of_lt (hvalid.strictMono h' (by omega))
    · have e : i + 1 = j := by omega
      rw [e]
  have h1 : (lod0.getD (i + 1) 0 : Int) * w ≤ (lod0.getD j 0 : Int) * w :=
    mul_le_mul_of_nonneg_right (by omega) (by omega)
  have := hi.2
  have := hjk.1
  omega

theorem forLoop_slices {β : Type} (w : Int) (lod0 : List Nat) (rows : Int)
    (hvalid : ValidOffsets lod0 rows) (body : (Int → β) → Nat → Run (Int → β))
    (init : Int → β) (hfail : ∀ s j, (body s j).failure = none)
    (hframe : ∀ s j, j + 1 < lod0.length → ∀ k, ¬ inSlice lod0 w j k →
      (body s j).state k = s k)
    (hpoint : ∀ s s' j k, s k = s' k → (body s j).state k = (body s' j).state k)
    (n : Nat) (hn : n ≤ lod0.length - 1) :
    (∀ i < n, ∀ k, inSlice lod0 w i k →
      (forLoop n body init).state k = (body init i).state k) ∧
    (∀ k, (∀ j < n, ¬ inSlice lod0 w j k) → (forLoop n body init).state k = init k) := by
  have htot := forLoop_total body init hfail
  induction n with
  | zero =>
    refine ⟨fun i hi => by omega, fun k _ => ?_⟩
    rw [forLoop_zero]
  | succ n ih =>
    obtain ⟨ih1, ih2⟩ := ih (by omega)
    constructor
    · intro i hi k hk
      rw [(htot n).2]
      rcases Nat.lt_succ_iff_lt_or_eq.mp hi with h | h
      · rw [hframe _ n (by omega) k (inSlice_disjoint hvalid h (by omega) hk)]
        exact ih1 i h k hk
      · subst h
        exact hpoint _ _ i k (ih2 k (fun j hj hjk =>
          inSlice_disjoint hvalid hj (by omega) hjk hk))
    · intro k hk
      rw [(htot n).2, hframe _ n (by omega) k (hk n (by omega))]
      exact ih2 k (fun j hj => hk j (by omega))

theorem SequencePoolGradKernel.grad_body_frame (sqrt : α → α) (pooltype : String)
    (in_data out_g : Int → α) (w : Int) (lod0 : List Nat) (rows : Int)
    (hvalid : ValidOffsets lod0 rows) (s : Int → α) (j : Nat) (hj : j + 1 < lod0.length)
    (k : Int) (hk : ¬ inSlice lod0 w j k) :
    (SequencePoolGradKernel.body sqrt pooltype in_data out_g w lod0 s j).state k = s k := by
  have hstep := hvalid.2.1 j (by omega)
  have hregion : (lod0.getD j 0 : Int) * w +
      ((lod0.getD (j + 1) 0 : Int) - (lod0.getD j 0 : Int)) * w =
      (lod0.getD (j + 1) 0 : Int) * w := by ring
  unfold inSlice at hk
  by_cases hp : pooltype ∈ supportedPoolTypes
  · simp only [supportedPoolTypes, List.mem_cons, List.mem_singleton, List.not_mem_nil,
      or_false] at hp
    rcases hp with h | h | h | h | h | h <;> subst h
    · rw [SequencePoolGradKernel.grad_body_AVERAGE]
      dsimp only
      refine assignMatrix_miss _ _ _ _ _ ?_
      omega
    · rw [SequencePoolGradKernel.grad_body_SUM]
      dsimp only
      refine assignMatrix_miss _ _ _ _ _ ?_
      omega
    · rw [SequencePoolGradKernel.grad_body_SQRT]
      dsimp only
      refine assignMatrix_miss _ _ _ _ _ ?_
      omega
    · rw [SequencePoolGradKernel.grad_body_MAX]
      dsimp only
      refine foldl_update_miss _ _ s w.toNat k (fun c hc hkc => hk ?_)
      have hrow := maxCoeff_range
        (fun r => colMajorMap in_data (lod0.getD j 0 : Int) w
          ((lod0.getD (j + 1) 0 : Int) - (lod0.getD j 0 : Int)) r (c : Int))
        ((lod0.getD (j + 1) 0 : Int) - (lod0.getD j 0 : Int)) (by omega)
      generalize maxCoeff
        (fun r => colMajorMap in_data (lod0.getD j 0 : Int) w
          ((lod0.getD (j + 1) 0 : Int) - (lod0.getD j 0 : Int)) r (c : Int))
        ((lod0.getD (j + 1) 0 : Int) - (lod0.getD j 0 : Int)) = row at hrow hkc
      have hc0 : (0 : Int) ≤ (c : Int) := by omega
      have hcw : (c : Int) < w := by omega
      have h1 : 0 ≤ row * w := mul_nonneg hrow.1 (by omega)
      have h2 : row * w + (c : Int) <
          ((lod0.getD (j + 1) 0 : Int) - (lod0.getD j 0 : Int)) * w :=
        row_index_lt (by omega) hc0 hcw
      rw [hkc]
      constructor <;> omega
    · rw [SequencePoolGradKernel.grad_body_LAST]
      dsimp only
      refine assignVector_miss _ _ _ _ ?_
      rcases le_or_lt w 0 with hw | hw
      · omega
      · have h1 : (lod0.getD j 0 : Int) * w ≤ ((lod0.getD (j + 1) 0 : Int) - 1) * w :=
          mul_le_mul_of_nonneg_right (by omega) (by omega)
        have h2 : ((lod0.getD (j + 1) 0 : Int) - 1) * w + w =
            (lod0.getD (j + 1) 0 : Int) * w := by ring
        omega
    · rw [SequencePoolGradKernel.grad_body_FIRST]
      dsimp only
      refine assignVector_miss _ _ _ _ ?_
      rcases le_or_lt w 0 with hw | hw
      · omega
      · have h1 : ((lod0.getD j 0 : Int) + 1) * w ≤ (lod0.getD (j + 1) 0 : Int) * w :=
          mul_le_mul_of_nonneg_right (by omega) (by omega)
        have h2 : ((lod0.getD j 0 : Int) + 1) * w = (lod0.getD j 0 : Int) * w + w := by ring
        omega
  · rw [SequencePoolGradKernel.grad_body_unsupported sqrt pooltype hp]

theorem SequencePoolGradKernel.grad_body_pointwise (sqrt : α → α) (pooltype : String)
    (in_data out_g : Int → α) (w : Int) (lod0 : List Nat) (s s' : Int → α) (j : Nat) (k : Int)
    (hk : s k = s' k) :
    (SequencePoolGradKernel.body sqrt pooltype in_data out_g w lod0 s j).state k =
      (SequencePoolGradKernel.body sqrt pooltype in_data out_g w lod0 s' j).state k := by
  by_cases hp : pooltype ∈ supportedPoolTypes
  · simp only [supportedPoolTypes, List.mem_cons, List.mem_singleton, List.not_mem_nil,
      or_false] at hp
    rcases hp with h | h | h | h | h | h <;> subst h
    · rw [SequencePoolGradKernel.grad_body_AVERAGE, SequencePoolGradKernel.grad_body_AVERAGE]
      simp only [assignMatrix]
      split_ifs
      · rfl
      · exact hk
    · rw [SequencePoolGradKernel.grad_body_SUM, SequencePoolGradKernel.grad_body_SUM]
      simp only [assignMatrix]
      split_ifs
      · rfl
      · exact hk
    · rw [SequencePoolGradKernel.grad_body_SQRT, SequencePoolGradKernel.grad_body_SQRT]
      simp only [assignMatrix]
      split_ifs
      · rfl
      · exact hk
    · rw [SequencePoolGradKernel.grad_body_MAX, SequencePoolGradKernel.grad_body_MAX]
      exact foldl_update_pointwise _ _ s s' _ k hk
    · rw [SequencePoolGradKernel.grad_body_LAST, SequencePoolGradKernel.grad_body_LAST]
      simp only [assignVector]
      split_ifs
      · rfl
      · exact hk
    · rw [SequencePoolGradKernel.grad_body_FIRST, SequencePoolGradKernel.grad_body_FIRST]
      simp only [assignVector]
      split_ifs
      · rfl
      · exact hk
  · rw [SequencePoolGradKernel.grad_body_unsupported sqrt pooltype hp,
      SequencePoolGradKernel.grad_body_unsupported sqrt pooltype hp]
    exact hk

theorem row_col_unique {r r' c c' w : Int} (hc0 : 0 ≤ c) (hc : c < w) (hc0' : 0 ≤ c')
    (hc' : c' < w) (h : r * w + c = r' * w + c') : r = r' ∧ c = c' := by
  have hr : r = r' := by
    rcases lt_trichotomy r r' with h1 | h1 | h1
    · have : r * w + c < r' * w := row_index_lt (by omega) hc0 hc
      omega
    · exact h1
    · have : r' * w + c' < r * w := row_index_lt (by omega) hc0' hc'
      omega
  subst hr
  exact ⟨rfl, by omega⟩

theorem SequencePoolGradKernel.grad_max_entry (sqrt : α → α) (in_data out_g : Int → α)
    (w : Int) (lod0 : List Nat) (rows : Int) (hvalid : ValidOffsets lod0 rows) (s : Int → α)
    (i : Nat) (hi : i + 1 < lod0.length) (r : Nat) (c : Int) (hc0 : 0 ≤ c) (hc : c < w) :
    (SequencePoolGradKernel.body sqrt "MAX" in_data out_g w lod0 s i).state ((r : Int) * w + c) =
      if (r : Int) - (lod0.getD i 0 : Int) =
          maxCoeff (fun q => colMajorMap in_data (lod0.getD i 0 : Int) w
            ((lod0.getD (i + 1) 0 : Int) - (lod0.getD i 0 : Int)) q c)
            ((lod0.getD (i + 1) 0 : Int) - (lod0.getD i 0 : Int))
      then out_g ((i : Int) * w + c) else s ((r : Int) * w + c) := by
  have hstep := hvalid.2.1 i (by omega)
  have hrange : ∀ n : Nat, 0 ≤ maxCoeff (fun q => colMajorMap in_data (lod0.getD i 0 : Int) w
        ((lod0.getD (i + 1) 0 : Int) - (lod0.getD i 0 : Int)) q (n : Int))
        ((lod0.getD (i + 1) 0 : Int) - (lod0.getD i 0 : Int)) :=
    fun n => (maxCoeff_range _ _ (by omega)).1
  have hidx : ∀ (n : Nat) (row : Int),
      (lod0.getD i 0 : Int) * w + (row * w + (n : Int)) =
        ((lod0.getD i 0 : Int) + row) * w + (n : Int) := fun n row => by ring
  have hcn : ((c.toNat : Nat) : Int) = c := Int.toNat_of_nonneg hc0
  rw [SequencePoolGradKernel.grad_body_MAX]
  dsimp only
  split_ifs with hrow
  · have hk : (r : Int) * w + c = (lod0.getD i 0 : Int) * w +
        (maxCoeff (fun q => colMajorMap in_data (lod0.getD i 0 : Int) w
          ((lod0.getD (i + 1) 0 : Int) - (lod0.getD i 0 : Int)) q ((c.toNat : Nat) : Int))
          ((lod0.getD (i + 1) 0 : Int) - (lod0.getD i 0 : Int)) * w + ((c.toNat : Nat) : Int)) := by
      rw [hcn, ← hrow]
      ring
    rw [hk, foldl_update_hit _ _ s w.toNat ?_ c.toNat (by omega), hcn]
    intro c1 c2 h1 h2 he
    rw [hidx, hidx] at he
    have := (row_col_unique (by omega) (by omega) (by omega) (by omega) he).2
    omega
  · refine foldl_update_miss _ _ s w.toNat _ (fun n hn he => hrow ?_)
    rw [hidx] at he
    obtain ⟨h1, h2⟩ := row_col_unique hc0 hc (by omega) (by omega) he
    rw [h2]
    omega

theorem SequencePoolGradKernel.grad_slice_entry (sqrt : α → α) (inp : LoDTensor α)
    (out_g in_g : Int → α) (pooltype : String) (hp : pooltype ∈ supportedPoolTypes)
    (lod0 : List Nat) (levels : List (List Nat)) (hlod : inp.lod = lod0 :: levels)
    (hvalid : ValidOffsets lod0 inp.dims0) (i : Nat) (hi : i + 1 < lod0.length) (k : Int)
    (hk : inSlice lod0 inp.width i k) :
    (SequencePoolGradKernel.Compute sqrt inp out_g in_g pooltype).failure = none ∧
      (SequencePoolGradKernel.Compute sqrt inp out_g in_g pooltype).state k =
        (SequencePoolGradKernel.body sqrt pooltype inp.data out_g inp.width lod0
          (if pooltype = "LAST" ∨ pooltype = "FIRST" then SetConstant inp.numel 0 in_g
            else in_g) i).state k := by
  have hd : inp.dims0 ≠ 0 := ne_of_gt (hvalid.rows_pos hi)
  rw [SequencePoolGradKernel.grad_Compute_eq sqrt inp out_g in_g pooltype lod0 levels hlod hd]
  have hfail := SequencePoolGradKernel.grad_body_supported sqrt pooltype hp inp.data out_g
    inp.width lod0
  refine ⟨(forLoop_total _ _ hfail _).1, ?_⟩
  exact (forLoop_slices inp.width lod0 inp.dims0 hvalid _ _ hfail
    (fun s j hj k hk =>
      SequencePoolGradKernel.grad_body_frame sqrt pooltype inp.data out_g inp.width lod0
        inp.dims0 hvalid s j hj k hk)
    (fun s s' j k hk =>
      SequencePoolGradKernel.grad_body_pointwise sqrt pooltype inp.data out_g inp.width lod0
        s s' j k hk)
    (lod0.length - 1) (le_refl _)).1 i (by omega) k hk

theorem colSum_congr {β : Type} [AddCommMonoid β] (m m' : Int → Int → β) (h c : Int)
    (hm : ∀ r : Int, 0 ≤ r → r < h → m r c = m' r c) : colSum m h c = colSum m' h c := by
  unfold colSum
  refine Finset.sum_congr rfl (fun r hr => hm r (by omega) ?_)
  have := Finset.mem_range.mp hr
  omega

theorem colMax_congr {β : Type} [LinearOrder β] (lowest : β) (m m' : Int → Int → β) (h c : Int)
    (hm : ∀ r : Int, 0 ≤ r → r < h → m r c = m' r c) :
    colMax lowest m h c = colMax lowest m' h c := by
  unfold colMax
  split_ifs with hh
  · rfl
  · have hgen : ∀ n : Nat, (n : Int) < h →
        (List.range n).foldl (fun acc (r : Nat) => max acc (m ((r : Int) + 1) c)) (m 0 c) =
          (List.range n).foldl (fun acc (r : Nat) => max acc (m' ((r : Int) + 1) c))
            (m' 0 c) := by
      intro n
      induction n with
      | zero => intro _; simpa using hm 0 (le_refl _) (by omega)
      | succ n ih =>
        intro hn
        rw [List.range_succ, List.foldl_append, List.foldl_append, ih (by push_cast at hn; omega)]
        simp only [List.foldl_cons, List.foldl_nil]
        rw [hm ((n : Int) + 1) (by omega) (by push_cast at hn; omega)]
    exact hgen _ (by omega)

theorem slice_agree_flat {β : Type} (d d' : Int → β) (w : Int) (a b : Nat) (hw : 0 < w)
    (hin : ∀ r : Nat, a ≤ r → r < b → ∀ c : Int, 0 ≤ c → c < w →
      d ((r : Int) * w + c) = d' ((r : Int) * w + c))
    (f : Int) (hf0 : 0 ≤ f) (hf : f < ((b : Int) - (a : Int)) * w) :
    d ((a : Int) * w + f) = d' ((a : Int) * w + f) := by
  have hq0 : 0 ≤ f / w := Int.ediv_nonneg hf0 (le_of_lt hw)
  have hq : f / w < (b : Int) - (a : Int) := Int.ediv_lt_of_lt_mul hw hf
  have hm0 : 0 ≤ f % w := Int.emod_nonneg f (ne_of_gt hw)
  have hm : f % w < w := Int.emod_lt_of_pos f hw
  have hsplit : (a : Int) * w + f = (((a + (f / w).toNat : Nat) : Int)) * w + f % w := by
    have e1 : ((a + (f / w).toNat : Nat) : Int) = (a : Int) + f / w := by omega
    have e2 : w * (f / w) + f % w = f := Int.ediv_add_emod f w
    rw [e1]
    linear_combination - e2
  rw [hsplit]
  exact hin _ (by omega) (by omega) _ hm0 hm

theorem sliceMatrix_agree {β : Type} (d d' : Int → β) (w : Int) (a b : Nat)
    (hin : ∀ r : Nat, a ≤ r → r < b → ∀ c : Int, 0 ≤ c → c < w →
      d ((r : Int) * w + c) = d' ((r : Int) * w + c))
    (r c : Int) (hr0 : 0 ≤ r) (hr : r < (b : Int) - (a : Int)) (hc0 : 0 ≤ c) (hc : c < w) :
    sliceMatrix d (a : Int) w r c = sliceMatrix d' (a : Int) w r c := by
  unfold sliceMatrix
  have e : (a : Int) * w + (r * w + c) = (((a + r.toNat : Nat) : Int)) * w + c := by
    have e1 : ((a + r.toNat : Nat) : Int) = (a : Int) + r := by omega
    rw [e1]; ring
  rw [e]
  exact hin _ (by omega) (by omega) c hc0 hc

theorem SequencePoolKernel.pool_body_vector (sqrt : α → α) (lowest : α) (pooltype : String)
    (hp : pooltype ∈ supportedPoolTypes) (w : Int) (lod0 : List Nat) (d d' : Int → α)
    (i : Nat) (hstep : lod0.getD i 0 < lod0.getD (i + 1) 0)
    (hin : ∀ r : Nat, lod0.getD i 0 ≤ r → r < lod0.getD (i + 1) 0 → ∀ c : Int, 0 ≤ c → c < w →
      d ((r : Int) * w + c) = d' ((r : Int) * w + c)) :
    ∃ v v' : Nat → Int → α,
      (∀ s j, SequencePoolKernel.body sqrt lowest pooltype d w lod0 s j =
        ⟨assignVector ((j : Int) * w) w (v j) s, none⟩) ∧
      (∀ s j, SequencePoolKernel.body sqrt lowest pooltype d' w lod0 s j =
        ⟨assignVector ((j : Int) * w) w (v' j) s, none⟩) ∧
      ∀ c : Int, 0 ≤ c → c < w → v i c = v' i c := by
  have hsl := sliceMatrix_agree d d' w (lod0.getD i 0) (lod0.getD (i + 1) 0) hin
  simp only [supportedPoolTypes, List.mem_cons, List.mem_singleton, List.not_mem_nil,
    or_false] at hp
  rcases hp with h | h | h | h | h | h <;> subst h
  · refine ⟨_, _, SequencePoolKernel.pool_body_AVERAGE sqrt lowest d w lod0,
      SequencePoolKernel.pool_body_AVERAGE sqrt lowest d' w lod0, fun c hc0 hc => ?_⟩
    dsimp only
    rw [colSum_congr _ _ _ c (fun r hr0 hr => hsl r c hr0 hr hc0 hc)]
  · refine ⟨_, _, SequencePoolKernel.pool_body_SUM sqrt lowest d w lod0,
      SequencePoolKernel.pool_body_SUM sqrt lowest d' w lod0, fun c hc0 hc => ?_⟩
    dsimp only
    rw [colSum_congr _ _ _ c (fun r hr0 hr => hsl r c hr0 hr hc0 hc)]
  · refine ⟨_, _, SequencePoolKernel.pool_body_SQRT sqrt lowest d w lod0,
      SequencePoolKernel.pool_body_SQRT sqrt lowest d' w lod0, fun c hc0 hc => ?_⟩
    dsimp only
    rw [colSum_congr _ _ _ c (fun r hr0 hr => hsl r c hr0 hr hc0 hc)]
  · refine ⟨_, _, SequencePoolKernel.pool_body_MAX sqrt lowest d w lod0,
      SequencePoolKernel.pool_body_MAX sqrt lowest d' w lod0, fun c hc0 hc => ?_⟩
    dsimp only
    rw [colMax_congr lowest _ _ _ c (fun r hr0 hr => hsl r c hr0 hr hc0 hc)]
  · refine ⟨_, _, SequencePoolKernel.pool_body_LAST sqrt lowest d w lod0,
      SequencePoolKernel.pool_body_LAST sqrt lowest d' w lod0, fun c hc0 hc => ?_⟩
    exact hsl _ c (by omega) (by omega) hc0 hc
  · refine ⟨_, _, SequencePoolKernel.pool_body_FIRST sqrt lowest d w lod0,
      SequencePoolKernel.pool_body_FIRST sqrt lowest d' w lod0, fun c hc0 hc => ?_⟩
    exact hsl 0 c (le_refl _) (by omega) hc0 hc

theorem SequencePoolGradKernel.grad_body_slice_congr (sqrt : α → α) (pooltype : String)
    (hp : pooltype ∈ supportedPoolTypes) (w : Int) (lod0 : List Nat) (rows : Int)
    (hvalid : ValidOffsets lod0 rows) (d d' og og' s : Int → α) (i : Nat)
    (hi : i + 1 < lod0.length)
    (hin : ∀ r : Nat, lod0.getD i 0 ≤ r → r < lod0.getD (i + 1) 0 → ∀ c : Int, 0 ≤ c → c < w →
      d ((r : Int) * w + c) = d' ((r : Int) * w + c))
    (hog : ∀ c : Int, 0 ≤ c → c < w → og ((i : Int) * w + c) = og' ((i : Int) * w + c))
    (r : Nat) (hr1 : lod0.getD i 0 ≤ r) (hr2 : r < lod0.getD (i + 1) 0) (c : Int)
    (hc0 : 0 ≤ c) (hc : c < w) :
    (SequencePoolGradKernel.body sqrt pooltype d og w lod0 s i).state ((r : Int) * w + c) =
      (SequencePoolGradKernel.body sqrt pooltype d' og' w lod0 s i).state
        ((r : Int) * w + c) := by
  have hstep := hvalid.2.1 i (by omega)
  have hk : (r : Int) * w + c =
      (lod0.getD i 0 : Int) * w + (((r : Int) - (lod0.getD i 0 : Int)) * w + c) := by ring
  simp only [supportedPoolTypes, List.mem_cons, List.mem_singleton, List.not_mem_nil,
    or_false] at hp
  rcases hp with h | h | h | h | h | h <;> subst h
  · rw [SequencePoolGradKernel.grad_body_AVERAGE, SequencePoolGradKernel.grad_body_AVERAGE]
    dsimp only
    rw [hk, assignMatrix_hit _ _ _ _ _ (by omega) (by omega) hc0 hc,
      assignMatrix_hit _ _ _ _ _ (by omega) (by omega) hc0 hc, hog c hc0 hc]
  · rw [SequencePoolGradKernel.grad_body_SUM, SequencePoolGradKernel.grad_body_SUM]
    dsimp only
    rw [hk, assignMatrix_hit _ _ _ _ _ (by omega) (by omega) hc0 hc,
      assignMatrix_hit _ _ _ _ _ (by omega) (by omega) hc0 hc, hog c hc0 hc]
  · rw [SequencePoolGradKernel.grad_body_SQRT, SequencePoolGradKernel.grad_body_SQRT]
    dsimp only
    rw [hk, assignMatrix_hit _ _ _ _ _ (by omega) (by omega) hc0 hc,
      assignMatrix_hit _ _ _ _ _ (by omega) (by omega) hc0 hc, hog c hc0 hc]
  · rw [SequencePoolGradKernel.grad_max_entry sqrt d og w lod0 rows hvalid s i hi r c hc0 hc,
      SequencePoolGradKernel.grad_max_entry sqrt d' og' w lod0 rows hvalid s i hi r c hc0 hc,
      hog c hc0 hc]
    have hcong : maxCoeff (fun q => colMajorMap d (lod0.getD i 0 : Int) w
          ((lod0.getD (i + 1) 0 : Int) - (lod0.getD i 0 : Int)) q c)
          ((lod0.getD (i + 1) 0 : Int) - (lod0.getD i 0 : Int)) =
        maxCoeff (fun q => colMajorMap d' (lod0.getD i 0 : Int) w
          ((lod0.getD (i + 1) 0 : Int) - (lod0.getD i 0 : Int)) q c)
          ((lod0.getD (i + 1) 0 : Int) - (lod0.getD i 0 : Int)) := by
      refine maxCoeff_congr _ _ _ (fun q hq0 hq => ?_)
      unfold colMajorMap
      have h1 : 0 ≤ c * ((lod0.getD (i + 1) 0 : Int) - (lod0.getD i 0 : Int)) :=
        mul_nonneg hc0 (by omega)
      have h2 : c * ((lod0.getD (i + 1) 0 : Int) - (lod0.getD i 0 : Int)) + q <
          w * ((lod0.getD (i + 1) 0 : Int) - (lod0.getD i 0 : Int)) :=
        row_index_lt (by omega) hq0 hq
      exact slice_agree_flat d d' w _ _ (by omega) hin _ (by omega)
        (by rw [mul_comm w] at h2; exact h2)
    rw [hcong]
  · rw [SequencePoolGradKernel.grad_body_LAST, SequencePoolGradKernel.grad_body_LAST]
    simp only [assignVector]
    split_ifs with hcond
    · exact hog _ (by omega) (by omega)
    · rfl
  · rw [SequencePoolGradKernel.grad_body_FIRST, SequencePoolGradKernel.grad_body_FIRST]
    simp only [assignVector]
    split_ifs with hcond
    · exact hog _ (by omega) (by omega)
    · rfl

theorem sum_rows_by_sequence {β : Type} [AddCommMonoid β] (lod0 : List Nat) (rows : Int)
    (hvalid : ValidOffsets lod0 rows) (h0 : lod0.getD 0 0 = 0) (f : Nat → β) (n : Nat)
    (hn : n ≤ lod0.length - 1) :
    ∑ r ∈ Finset.range (lod0.getD n 0), f r =
      ∑ i ∈ Finset.range n, ∑ r ∈ Finset.Ico (lod0.getD i 0) (lod0.getD (i + 1) 0), f r := by
  induction n with
  | zero => rw [h0]; simp
  | succ n ih =>
    have hstep := hvalid.2.1 n (by omega)
    rw [Finset.sum_range_succ, ← ih (by omega),
      Finset.sum_range_add_sum_Ico f (le_of_lt hstep)]

theorem adjoint_of_entries (lod0 : List Nat) (rows : Int) (hvalid : ValidOffsets lod0 rows)
    (h0 : lod0.getD 0 0 = 0) (w : Int) (x g F B : Int → α)
    (hseq : ∀ i : Nat, i + 1 < lod0.length → ∀ c : Int, 0 ≤ c → c < w →
      ∑ r ∈ Finset.Ico (lod0.getD i 0) (lod0.getD (i + 1) 0),
        x ((r : Int) * w + c) * B ((r : Int) * w + c) =
      F ((i : Int) * w + c) * g ((i : Int) * w + c)) :
    ∑ i ∈ Finset.range (lod0.length - 1), ∑ c ∈ Finset.range w.toNat,
        F ((i : Int) * w + ((c : Nat) : Int)) * g ((i : Int) * w + ((c : Nat) : Int)) =
      ∑ r ∈ Finset.range (lod0.getD (lod0.length - 1) 0), ∑ c ∈ Finset.range w.toNat,
        x ((r : Int) * w + ((c : Nat) : Int)) * B ((r : Int) * w + ((c : Nat) : Int)) := by
  rw [sum_rows_by_sequence lod0 rows hvalid h0 _ (lod0.length - 1) (le_refl _)]
  refine Finset.sum_congr rfl (fun i hi => ?_)
  rw [Finset.sum_comm]
  refine Finset.sum_congr rfl (fun c hc => ?_)
  have hi' := Finset.mem_range.mp hi
  have hc' := Finset.mem_range.mp hc
  exact (hseq i (by omega) (c : Int) (by omega) (by omega)).symm

theorem SequencePoolGradKernel.grad_row_entry (sqrt : α → α) (inp : LoDTensor α)
    (out_g in_g : Int → α) (lod0 : List Nat) (levels : List (List Nat))
    (hlod : inp.lod = lod0 :: levels) (hvalid : ValidOffsets lod0 inp.dims0)
    (i : Nat) (hi : i + 1 < lod0.length) (r : Nat) (hr1 : lod0.getD i 0 ≤ r)
    (hr2 : r < lod0.getD (i + 1) 0) (c : Int) (hc0 : 0 ≤ c) (hc : c < inp.width) :
    (SequencePoolGradKernel.Compute sqrt inp out_g in_g "LAST").state
        ((r : Int) * inp.width + c) =
      (if r + 1 = lod0.getD (i + 1) 0 then out_g ((i : Int) * inp.width + c) else 0) ∧
    (SequencePoolGradKernel.Compute sqrt inp out_g in_g "FIRST").state
        ((r : Int) * inp.width + c) =
      (if r = lod0.getD i 0 then out_g ((i : Int) * inp.width + c) else 0) := by
  have hd : inp.dims0 ≠ 0 := ne_of_gt (hvalid.rows_pos hi)
  have hle := hvalid.2.2 (i + 1) hi
  have hk := inSlice_of_row lod0 inp.width i r c hr1 hr2 hc0 hc
  have hclear : SetConstant inp.numel 0 in_g ((r : Int) * inp.width + c) = 0 :=
    SetConstant_inside inp 0 in_g hd (by omega) (by omega) hc0 hc
  constructor
  · rw [(SequencePoolGradKernel.grad_slice_entry sqrt inp out_g in_g "LAST" (by decide) lod0
        levels hlod hvalid i hi _ hk).2, if_pos (Or.inl rfl),
      SequencePoolGradKernel.grad_body_LAST]
    dsimp only
    split_ifs with hrow
    · have e : ((lod0.getD (i + 1) 0 : Int) - 1) = (r : Int) := by omega
      rw [e]
      exact assignVector_hit _ _ _ _ hc0 hc
    · have hmiss : (r : Int) * inp.width + c < ((lod0.getD (i + 1) 0 : Int) - 1) * inp.width :=
        row_index_lt (by omega) hc0 hc
      rw [assignVector_miss _ _ _ _ (Or.inl hmiss)]
      exact hclear
  · rw [(SequencePoolGradKernel.grad_slice_entry sqrt inp out_g in_g "FIRST" (by decide) lod0
        levels hlod hvalid i hi _ hk).2, if_pos (Or.inr rfl),
      SequencePoolGradKernel.grad_body_FIRST]
    dsimp only
    split_ifs with hrow
    · rw [hrow]
      exact assignVector_hit _ _ _ _ hc0 hc
    · have h1 : ((lod0.getD i 0 : Int) + 1) * inp.width ≤ (r : Int) * inp.width :=
        mul_le_mul_of_nonneg_right (by omega) (by omega)
      have h2 : ((lod0.getD i 0 : Int) + 1) * inp.width =
          (lod0.getD i 0 : Int) * inp.width + inp.width := by ring
      rw [assignVector_miss _ _ _ _ (Or.inr (by omega))]
      exact hclear

/-- C1, evaluated at a failing input: one sequence of two rows `[1, 2]`, `[0, 5]` of width 2,
`outGrad = [7, 9]`, input gradient buffer zero on entry. Column 0 of the input is `1, 0`: its
maximum, the forward MAX output 1, is attained at row 0 only, so the claim puts
`outGrad[0][0] = 7` at `inputGrad[0][0]`. The gradient kernel reads the slice through a
column-major map, takes `1, 2` for column 0, and writes the 7 to `inputGrad[1][0]` (offset 2);
`inputGrad[0][0]` (offset 0) stays 0. -/
theorem backward_max_argmax_row_failing_input :
    (SequencePoolKernel.Compute id 0 (wideScenario ℚ) (blankOut ℚ) "MAX").state.data 0 = 1 ∧
    (wideScenario ℚ).data (0 * 2 + 0) = 1 ∧
    (wideScenario ℚ).data (1 * 2 + 0) = 0 ∧
    (SequencePoolGradKernel.Compute id (wideScenario ℚ) (bufOfList [7, 9]) (fun _ => 0)
      "MAX").failure = none ∧
    (SequencePoolGradKernel.Compute id (wideScenario ℚ) (bufOfList [7, 9]) (fun _ => 0)
      "MAX").state (0 * 2 + 0) = 0 ∧
    (SequencePoolGradKernel.Compute id (wideScenario ℚ) (bufOfList [7, 9]) (fun _ => 0)
      "MAX").state (1 * 2 + 0) = 7 := by
  refine ⟨?_, ?_, ?_, ?_, ?_, ?_⟩ <;> decide

/-- C2, evaluated at a failing input: the scenario of the specification (offsets `[0, 3]`,
rows `[1, 5, 2]`, `outGrad = [1]`) with an input gradient buffer that holds 9 everywhere on
entry. The gradient kernel with policy MAX does not clear the buffer (line 99 clears it for
LAST and FIRST only): it leaves `[9, 1, 9]`, where the claim has `[0, 1, 0]`. -/
theorem backward_max_zero_elsewhere_failing_input :
    (SequencePoolGradKernel.Compute id (specScenario ℚ) (bufOfList [1]) (fun _ => 9)
      "MAX").failure = none ∧
    (SequencePoolGradKernel.Compute id (specScenario ℚ) (bufOfList [1]) (fun _ => 9)
      "MAX").state 0 = 9 ∧
    (SequencePoolGradKernel.Compute id (specScenario ℚ) (bufOfList [1]) (fun _ => 9)
      "MAX").state 1 = 1 ∧
    (SequencePoolGradKernel.Compute id (specScenario ℚ) (bufOfList [1]) (fun _ => 9)
      "MAX").state 2 = 9 := by
  refine ⟨?_, ?_, ?_, ?_⟩ <;> decide

/-- C3 (as amended): for every pooltype string that is not one of AVERAGE, SUM, SQRT, MAX, LAST,
FIRST and every input with one offsets level, `total_rows >= batch_size` and at least one
sequence (an offsets table of length at least 2), the forward and the gradient kernel each fail
with UnsupportedPoolTypeError; the error is raised by the dispatch for the first sequence,
before any element of the output data or of the input gradient buffer has been written. -/
theorem unsupported_pooltype_rejected (sqrt : α → α) (lowest : α) (inp out : LoDTensor α)
    (out_g in_g : Int → α) (pooltype : String) (hp : pooltype ∉ supportedPoolTypes)
    (lod0 : List Nat) (hlod : inp.lod = [lod0]) (hrows : (lod0.length : Int) - 1 ≤ inp.dims0)
    (hseq : 2 ≤ lod0.length) :
    ((SequencePoolKernel.Compute sqrt lowest inp out pooltype).failure =
        some Failure.unsupportedPoolType ∧
      (SequencePoolKernel.Compute sqrt lowest inp out pooltype).state.data = out.data) ∧
    ((SequencePoolGradKernel.Compute sqrt inp out_g in_g pooltype).failure =
        some Failure.unsupportedPoolType ∧
      (SequencePoolGradKernel.Compute sqrt inp out_g in_g pooltype).state = in_g) := by
  have hd : inp.dims0 ≠ 0 := by omega
  have hn : lod0.length - 1 = (lod0.length - 2) + 1 := by omega
  constructor
  · rw [SequencePoolKernel.pool_Compute_eq sqrt lowest inp out pooltype lod0 hlod hd hrows, hn,
      forLoop_throw _ _ _
        (SequencePoolKernel.pool_body_unsupported sqrt lowest pooltype hp inp.data inp.width lod0)]
    exact ⟨rfl, rfl⟩
  · have hno : ¬ (pooltype = "LAST" ∨ pooltype = "FIRST") := by
      intro h
      apply hp
      rcases h with h | h <;> subst h <;> decide
    rw [SequencePoolGradKernel.grad_Compute_eq sqrt inp out_g in_g pooltype lod0 [] hlod hd, hn,
      forLoop_throw _ _ _
        (SequencePoolGradKernel.grad_body_unsupported sqrt pooltype hp inp.data out_g inp.width lod0),
      if_neg hno]
    exact ⟨rfl, rfl⟩

/-- Witness of C3 (as amended): on the scenario of the specification (offsets `[0, 3]`, one
sequence) the pooltype `"MEDIAN"` makes both kernels fail with UnsupportedPoolTypeError. -/
theorem unsupported_pooltype_rejected_witness :
    (SequencePoolKernel.Compute Real.sqrt 0 (specScenario ℝ) (blankOut ℝ) "MEDIAN").failure =
        some Failure.unsupportedPoolType ∧
    (SequencePoolGradKernel.Compute Real.sqrt (specScenario ℝ) (bufOfList [1]) (fun _ => 0)
        "MEDIAN").failure = some Failure.unsupportedPoolType := by
  have h := unsupported_pooltype_rejected Real.sqrt 0 (specScenario ℝ) (blankOut ℝ)
    (bufOfList [1]) (fun _ => 0) "MEDIAN" (by decide) [0, 3] rfl (by decide) (by decide)
  exact ⟨h.1.1, h.2.1⟩

/-- Counterexample to C3 as stated: on a structurally valid input whose batch has zero sequences
(offsets table `[0]` of length 1) the unsupported pooltype `"MEDIAN"` is not rejected; the
per-sequence loops that hold the dispatch are not entered and both kernels complete. -/
theorem unsupported_pooltype_rejected_counterexample :
    "MEDIAN" ∉ supportedPoolTypes ∧
    (zeroSequenceScenario ℚ).lod = [[0]] ∧
    (([0] : List Nat).length : Int) - 1 ≤ (zeroSequenceScenario ℚ).dims0 ∧
    (SequencePoolKernel.Compute id 0 (zeroSequenceScenario ℚ) (blankOut ℚ) "MEDIAN").failure =
        none ∧
    (SequencePoolGradKernel.Compute id (zeroSequenceScenario ℚ) (fun _ => 0) (fun _ => 0)
        "MEDIAN").failure = none := by
  refine ⟨by decide, rfl, by decide, ?_, ?_⟩
  · simp [SequencePoolKernel.Compute, zeroSequenceScenario, forLoop]
  · simp [SequencePoolGradKernel.Compute, zeroSequenceScenario, forLoop]

/-- C4: forward linear reductions equal the reference. For a valid offsets table with every
length at least 1, each sequence `i` and each column `c` of the row width, the forward kernel
completes and writes `output[i][c] = S` for SUM, `S / h` for AVERAGE and `S / sqrt h` for SQRT,
where `S` is the sum of `input[r][c]` over the rows `r` of `[offsets[i], offsets[i+1])` and
`h = offsets[i+1] - offsets[i]`. -/
theorem forward_sum_average_sqrt (sqrt : α → α) (lowest : α) (inp out : LoDTensor α)
    (lod0 : List Nat) (hlod : inp.lod = [lod0]) (hvalid : ValidOffsets lod0 inp.dims0)
    (i : Nat) (hi : i + 1 < lod0.length) (c : Int) (hc0 : 0 ≤ c) (hc : c < inp.width) :
    let S : α := ∑ r ∈ Finset.Ico (lod0.getD i 0) (lod0.getD (i + 1) 0),
      inp.data ((r : Int) * inp.width + c)
    let h : Int := (lod0.getD (i + 1) 0 : Int) - (lod0.getD i 0 : Int)
    ((SequencePoolKernel.Compute sqrt lowest inp out "SUM").failure = none ∧
      (SequencePoolKernel.Compute sqrt lowest inp out "SUM").state.data
        ((i : Int) * inp.width + c) = S) ∧
    ((SequencePoolKernel.Compute sqrt lowest inp out "AVERAGE").failure = none ∧
      (SequencePoolKernel.Compute sqrt lowest inp out "AVERAGE").state.data
        ((i : Int) * inp.width + c) = S / (h : α)) ∧
    ((SequencePoolKernel.Compute sqrt lowest inp out "SQRT").failure = none ∧
      (SequencePoolKernel.Compute sqrt lowest inp out "SQRT").state.data
        ((i : Int) * inp.width + c) = S / sqrt (h : α)) := by
  intro S h
  refine ⟨?_, ?_, ?_⟩
  · have := SequencePoolKernel.forward_entry sqrt lowest inp out "SUM" lod0 _ hlod hvalid
      (SequencePoolKernel.pool_body_SUM sqrt lowest inp.data inp.width lod0) i hi c hc0 hc
    rw [colSum_slice] at this
    exact this
  · have := SequencePoolKernel.forward_entry sqrt lowest inp out "AVERAGE" lod0 _ hlod hvalid
      (SequencePoolKernel.pool_body_AVERAGE sqrt lowest inp.data inp.width lod0) i hi c hc0 hc
    rw [colSum_slice] at this
    exact this
  · have := SequencePoolKernel.forward_entry sqrt lowest inp out "SQRT" lod0 _ hlod hvalid
      (SequencePoolKernel.pool_body_SQRT sqrt lowest inp.data inp.width lod0) i hi c hc0 hc
    rw [colSum_slice] at this
    exact this

/-- Witness of C4 on the two scenarios of the specification: offsets `[0, 2, 5]` with rows
`[1, 3, 2, 4, 6]` give SUM `[4, 12]` and AVERAGE `[2, 4]`; offsets `[0, 3]` with rows
`[1, 5, 2]` give SUM 8, AVERAGE 8/3 and SQRT `8 / sqrt 3`. -/
theorem forward_sum_average_sqrt_witness :
    ((SequencePoolKernel.Compute Real.sqrt 0 (multiScenario ℝ) (blankOut ℝ) "SUM").state.data 0 = 4 ∧
      (SequencePoolKernel.Compute Real.sqrt 0 (multiScenario ℝ) (blankOut ℝ) "AVERAGE").state.data 0
        = 2) ∧
    ((SequencePoolKernel.Compute Real.sqrt 0 (multiScenario ℝ) (blankOut ℝ) "SUM").state.data 1 = 12 ∧
      (SequencePoolKernel.Compute Real.sqrt 0 (multiScenario ℝ) (blankOut ℝ) "AVERAGE").state.data 1
        = 4) ∧
    ((SequencePoolKernel.Compute Real.sqrt 0 (specScenario ℝ) (blankOut ℝ) "SUM").state.data 0 = 8 ∧
      (SequencePoolKernel.Compute Real.sqrt 0 (specScenario ℝ) (blankOut ℝ) "AVERAGE").state.data 0
        = 8 / 3 ∧
      (SequencePoolKernel.Compute Real.sqrt 0 (specScenario ℝ) (blankOut ℝ) "SQRT").state.data 0
        = 8 / Real.sqrt 3) := by
  have hw : (multiScenario ℝ).width = 1 := by decide
  have hw3 : (specScenario ℝ).width = 1 := by decide
  have h0 := forward_sum_average_sqrt Real.sqrt 0 (multiScenario ℝ) (blankOut ℝ) [0, 2, 5] rfl
    (by decide) 0 (by decide) 0 (by decide) (by decide)
  have h1 := forward_sum_average_sqrt Real.sqrt 0 (multiScenario ℝ) (blankOut ℝ) [0, 2, 5] rfl
    (by decide) 1 (by decide) 0 (by decide) (by decide)
  have h3 := forward_sum_average_sqrt Real.sqrt 0 (specScenario ℝ) (blankOut ℝ) [0, 3] rfl
    (by decide) 0 (by decide) 0 (by decide) (by decide)
  simp only [hw] at h0 h1
  simp only [hw3] at h3
  norm_num [Finset.sum_Ico_eq_sum_range, Finset.sum_range_succ, multiScenario, bufOfList] at h0 h1
  norm_num [Finset.sum_Ico_eq_sum_range, Finset.sum_range_succ, specScenario, bufOfList] at h3
  exact ⟨⟨h0.1.2, h0.2.1.2⟩, ⟨h1.1.2, h1.2.1.2⟩, h3.1.2, h3.2.1.2, h3.2.2.2⟩

/-- C5: forward MAX is the column-wise maximum of the slice. For a valid offsets table with every
length at least 1, each sequence `i` and each column `c`, the forward kernel with policy MAX
completes, `output[i][c]` is at least `input[r][c]` for every row `r` of
`[offsets[i], offsets[i+1])`, and it equals `input[r][c]` for at least one such row. -/
theorem forward_max_is_column_maximum (sqrt : α → α) (lowest : α) (inp out : LoDTensor α)
    (lod0 : List Nat) (hlod : inp.lod = [lod0]) (hvalid : ValidOffsets lod0 inp.dims0)
    (i : Nat) (hi : i + 1 < lod0.length) (c : Int) (hc0 : 0 ≤ c) (hc : c < inp.width) :
    (SequencePoolKernel.Compute sqrt lowest inp out "MAX").failure = none ∧
    (∀ r : Nat, lod0.getD i 0 ≤ r → r < lod0.getD (i + 1) 0 →
      inp.data ((r : Int) * inp.width + c) ≤
        (SequencePoolKernel.Compute sqrt lowest inp out "MAX").state.data
          ((i : Int) * inp.width + c)) ∧
    (∃ r : Nat, lod0.getD i 0 ≤ r ∧ r < lod0.getD (i + 1) 0 ∧
      (SequencePoolKernel.Compute sqrt lowest inp out "MAX").state.data
          ((i : Int) * inp.width + c) = inp.data ((r : Int) * inp.width + c)) := by
  have hent := SequencePoolKernel.forward_entry sqrt lowest inp out "MAX" lod0 _ hlod hvalid
    (SequencePoolKernel.pool_body_MAX sqrt lowest inp.data inp.width lod0) i hi c hc0 hc
  have hstep := hvalid.2.1 i (by omega)
  obtain ⟨hfail, hval⟩ := hent
  have hpos : ¬ ((lod0.getD (i + 1) 0 : Int) - (lod0.getD i 0 : Int) ≤ 0) := by omega
  have hn : ((lod0.getD (i + 1) 0 : Int) - (lod0.getD i 0 : Int)).toNat - 1 =
      lod0.getD (i + 1) 0 - lod0.getD i 0 - 1 := by omega
  simp only [colMax, if_neg hpos, hn] at hval
  obtain ⟨hle, r0, hr0, heq⟩ := foldl_max_spec
    (fun r => sliceMatrix inp.data (lod0.getD i 0 : Int) inp.width r c)
    (lod0.getD (i + 1) 0 - lod0.getD i 0 - 1)
  have hidx : ∀ k : Nat, sliceMatrix inp.data (lod0.getD i 0 : Int) inp.width (k : Int) c =
      inp.data (((lod0.getD i 0 + k : Nat) : Int) * inp.width + c) := by
    intro k
    unfold sliceMatrix
    congr 1
    push_cast
    ring
  refine ⟨hfail, ?_, ?_⟩
  · intro r hr1 hr2
    rw [hval]
    have := hle (r - lod0.getD i 0) (by omega)
    simp only [hidx] at this
    have e : lod0.getD i 0 + (r - lod0.getD i 0) = r := by omega
    rw [e] at this
    exact this
  · refine ⟨lod0.getD i 0 + r0, by omega, by omega, ?_⟩
    rw [hval, ← hidx]
    exact heq

/-- Witness of C5 on the scenarios of the specification: offsets `[0, 3]` with rows `[1, 5, 2]`
give `[5]`; offsets `[0, 2, 5]` with rows `[1, 3, 2, 4, 6]` give `[3, 6]`. -/
theorem forward_max_is_column_maximum_witness :
    (SequencePoolKernel.Compute Real.sqrt 0 (specScenario ℝ) (blankOut ℝ) "MAX").state.data 0 = 5 ∧
    (SequencePoolKernel.Compute Real.sqrt 0 (multiScenario ℝ) (blankOut ℝ) "MAX").state.data 0 = 3 ∧
    (SequencePoolKernel.Compute Real.sqrt 0 (multiScenario ℝ) (blankOut ℝ) "MAX").state.data 1
      = 6 := by
  have hw : (multiScenario ℝ).width = 1 := by decide
  have hw3 : (specScenario ℝ).width = 1 := by decide
  have h3 := forward_max_is_column_maximum Real.sqrt 0 (specScenario ℝ) (blankOut ℝ) [0, 3] rfl
    (by decide) 0 (by decide) 0 (by decide) (by decide)
  have h0 := forward_max_is_column_maximum Real.sqrt 0 (multiScenario ℝ) (blankOut ℝ) [0, 2, 5]
    rfl (by decide) 0 (by decide) 0 (by decide) (by decide)
  have h1 := forward_max_is_column_maximum Real.sqrt 0 (multiScenario ℝ) (blankOut ℝ) [0, 2, 5]
    rfl (by decide) 1 (by decide) 0 (by decide) (by decide)
  simp only [hw, Nat.cast_zero, Nat.cast_one, zero_mul, one_mul, mul_one, add_zero] at h0 h1
  simp only [hw3, Nat.cast_zero, zero_mul, mul_one, add_zero] at h3
  refine ⟨?_, ?_, ?_⟩
  · obtain ⟨_, hge, r, hr1, hr2, heq⟩ := h3
    have h5 := hge 1 (by decide) (by decide)
    rw [heq] at h5 ⊢
    have : r = 0 ∨ r = 1 ∨ r = 2 := by
      simp at hr1 hr2; omega
    rcases this with h | h | h <;> subst h <;>
      norm_num [specScenario, bufOfList, Int.toNat] at h5 ⊢
  · obtain ⟨_, hge, r, hr1, hr2, heq⟩ := h0
    have h5 := hge 1 (by decide) (by decide)
    rw [heq] at h5 ⊢
    have : r = 0 ∨ r = 1 := by
      simp at hr1 hr2; omega
    rcases this with h | h <;> subst h <;>
      norm_num [multiScenario, bufOfList, Int.toNat] at h5 ⊢
  · obtain ⟨_, hge, r, hr1, hr2, heq⟩ := h1
    have h5 := hge 4 (by decide) (by decide)
    rw [heq] at h5 ⊢
    have : r = 2 ∨ r = 3 ∨ r = 4 := by
      simp at hr1 hr2; omega
    rcases this with h | h | h <;> subst h <;>
      norm_num [multiScenario, bufOfList, Int.toNat] at h5 ⊢

/-- C6: forward FIRST and LAST copy one input row. For a valid offsets table with every length at
least 1, each sequence `i` and each column `c`, the forward kernel completes and
`output[i][c]` is `input[offsets[i]][c]` for FIRST and `input[offsets[i+1] - 1][c]` for LAST. -/
theorem forward_first_last_copy_row (sqrt : α → α) (lowest : α) (inp out : LoDTensor α)
    (lod0 : List Nat) (hlod : inp.lod = [lod0]) (hvalid : ValidOffsets lod0 inp.dims0)
    (i : Nat) (hi : i + 1 < lod0.length) (c : Int) (hc0 : 0 ≤ c) (hc : c < inp.width) :
    ((SequencePoolKernel.Compute sqrt lowest inp out "FIRST").failure = none ∧
      (SequencePoolKernel.Compute sqrt lowest inp out "FIRST").state.data
        ((i : Int) * inp.width + c) = inp.data ((lod0.getD i 0 : Int) * inp.width + c)) ∧
    ((SequencePoolKernel.Compute sqrt lowest inp out "LAST").failure = none ∧
      (SequencePoolKernel.Compute sqrt lowest inp out "LAST").state.data
        ((i : Int) * inp.width + c) =
          inp.data (((lod0.getD (i + 1) 0 : Int) - 1) * inp.width + c)) := by
  constructor
  · have := SequencePoolKernel.forward_entry sqrt lowest inp out "FIRST" lod0 _ hlod hvalid
      (SequencePoolKernel.pool_body_FIRST sqrt lowest inp.data inp.width lod0) i hi c hc0 hc
    refine ⟨this.1, this.2.trans ?_⟩
    unfold sliceMatrix
    congr 1
    ring
  · have := SequencePoolKernel.forward_entry sqrt lowest inp out "LAST" lod0 _ hlod hvalid
      (SequencePoolKernel.pool_body_LAST sqrt lowest inp.data inp.width lod0) i hi c hc0 hc
    refine ⟨this.1, this.2.trans ?_⟩
    unfold sliceMatrix
    congr 1
    ring

/-- Witness of C6 on the scenario of the specification: offsets `[0, 3]` with rows `[1, 5, 2]`
give FIRST `[1]` and LAST `[2]`. -/
theorem forward_first_last_copy_row_witness :
    (SequencePoolKernel.Compute Real.sqrt 0 (specScenario ℝ) (blankOut ℝ) "FIRST").state.data 0
      = 1 ∧
    (SequencePoolKernel.Compute Real.sqrt 0 (specScenario ℝ) (blankOut ℝ) "LAST").state.data 0
      = 2 := by
  have hw3 : (specScenario ℝ).width = 1 := by decide
  have h3 := forward_first_last_copy_row Real.sqrt 0 (specScenario ℝ) (blankOut ℝ) [0, 3] rfl
    (by decide) 0 (by decide) 0 (by decide) (by decide)
  simp only [hw3, Nat.cast_zero, zero_mul, mul_one, add_zero] at h3
  norm_num [specScenario, bufOfList, Int.toNat] at h3
  exact ⟨h3.1.2, h3.2.2⟩

/-- C7: backward LAST and FIRST write one row and zero the rest. For a valid offsets table with
every length at least 1, whatever the input gradient buffer holds on entry, and each sequence
`i`, the gradient kernel completes, the row `inputGrad[offsets[i+1] - 1, :]` (LAST),
respectively `inputGrad[offsets[i], :]` (FIRST), equals `outGrad[i, :]`, and every row of the
buffer that is not the selected row of some sequence is exactly zero. -/
theorem backward_last_first_one_row (sqrt : α → α) (inp : LoDTensor α)
    (out_g in_g : Int → α) (lod0 : List Nat) (levels : List (List Nat))
    (hlod : inp.lod = lod0 :: levels) (hvalid : ValidOffsets lod0 inp.dims0)
    (i : Nat) (hi : i + 1 < lod0.length) :
    ((SequencePoolGradKernel.Compute sqrt inp out_g in_g "LAST").failure = none ∧
      (∀ c : Int, 0 ≤ c → c < inp.width →
        (SequencePoolGradKernel.Compute sqrt inp out_g in_g "LAST").state
          (((lod0.getD (i + 1) 0 : Int) - 1) * inp.width + c) =
            out_g ((i : Int) * inp.width + c)) ∧
      (∀ r : Int, 0 ≤ r → r < inp.dims0 →
        (∀ j : Nat, j + 1 < lod0.length → r ≠ (lod0.getD (j + 1) 0 : Int) - 1) →
        ∀ c : Int, 0 ≤ c → c < inp.width →
          (SequencePoolGradKernel.Compute sqrt inp out_g in_g "LAST").state
            (r * inp.width + c) = 0)) ∧
    ((SequencePoolGradKernel.Compute sqrt inp out_g in_g "FIRST").failure = none ∧
      (∀ c : Int, 0 ≤ c → c < inp.width →
        (SequencePoolGradKernel.Compute sqrt inp out_g in_g "FIRST").state
          ((lod0.getD i 0 : Int) * inp.width + c) = out_g ((i : Int) * inp.width + c)) ∧
      (∀ r : Int, 0 ≤ r → r < inp.dims0 →
        (∀ j : Nat, j + 1 < lod0.length → r ≠ (lod0.getD j 0 : Int)) →
        ∀ c : Int, 0 ≤ c → c < inp.width →
          (SequencePoolGradKernel.Compute sqrt inp out_g in_g "FIRST").state
            (r * inp.width + c) = 0)) := by
  have hd : inp.dims0 ≠ 0 := ne_of_gt (hvalid.rows_pos hi)
  constructor
  · rw [SequencePoolGradKernel.grad_Compute_eq sqrt inp out_g in_g "LAST" lod0 levels hlod hd,
      if_pos (Or.inl rfl)]
    obtain ⟨hfail, hrow, hrest⟩ := forLoop_assignRows inp.width
      (fun j => (lod0.getD (j + 1) 0 : Int) - 1) _ _ (SetConstant inp.numel 0 in_g)
      (SequencePoolGradKernel.grad_body_LAST sqrt inp.data out_g inp.width lod0) (lod0.length - 1)
      (fun a b hab hb => by
        have := hvalid.strictMono (i := a + 1) (j := b + 1) (by omega) (by omega)
        show (lod0.getD (a + 1) 0 : Int) - 1 < (lod0.getD (b + 1) 0 : Int) - 1
        omega)
    refine ⟨hfail, fun c hc0 hc => hrow i (by omega) c hc0 hc, fun r hr0 hr hne c hc0 hc => ?_⟩
    rw [hrest r c hc0 hc (fun j hj => hne j (by omega))]
    exact SetConstant_inside inp 0 in_g hd hr0 hr hc0 hc
  · rw [SequencePoolGradKernel.grad_Compute_eq sqrt inp out_g in_g "FIRST" lod0 levels hlod hd,
      if_pos (Or.inr rfl)]
    obtain ⟨hfail, hrow, hrest⟩ := forLoop_assignRows inp.width
      (fun j => (lod0.getD j 0 : Int)) _ _ (SetConstant inp.numel 0 in_g)
      (SequencePoolGradKernel.grad_body_FIRST sqrt inp.data out_g inp.width lod0) (lod0.length - 1)
      (fun a b hab hb => by
        have := hvalid.strictMono (i := a) (j := b) hab (by omega)
        show (lod0.getD a 0 : Int) < (lod0.getD b 0 : Int)
        omega)
    refine ⟨hfail, fun c hc0 hc => hrow i (by omega) c hc0 hc, fun r hr0 hr hne c hc0 hc => ?_⟩
    rw [hrest r c hc0 hc (fun j hj => hne j (by omega))]
    exact SetConstant_inside inp 0 in_g hd hr0 hr hc0 hc

/-- Witness of C7 on the scenario of the specification: offsets `[0, 3]` and `outGrad = [1]`
give the input gradient `[0, 0, 1]` for LAST and `[1, 0, 0]` for FIRST, here from a buffer that
held 9 everywhere. -/
theorem backward_last_first_one_row_witness :
    ((SequencePoolGradKernel.Compute Real.sqrt (specScenario ℝ) (bufOfList [1]) (fun _ => 9)
        "LAST").state 0 = 0 ∧
      (SequencePoolGradKernel.Compute Real.sqrt (specScenario ℝ) (bufOfList [1]) (fun _ => 9)
        "LAST").state 1 = 0 ∧
      (SequencePoolGradKernel.Compute Real.sqrt (specScenario ℝ) (bufOfList [1]) (fun _ => 9)
        "LAST").state 2 = 1) ∧
    ((SequencePoolGradKernel.Compute Real.sqrt (specScenario ℝ) (bufOfList [1]) (fun _ => 9)
        "FIRST").state 0 = 1 ∧
      (SequencePoolGradKernel.Compute Real.sqrt (specScenario ℝ) (bufOfList [1]) (fun _ => 9)
        "FIRST").state 1 = 0 ∧
      (SequencePoolGradKernel.Compute Real.sqrt (specScenario ℝ) (bufOfList [1]) (fun _ => 9)
        "FIRST").state 2 = 0) := by
  have hw3 : (specScenario ℝ).width = 1 := by decide
  obtain ⟨⟨_, hl, hlz⟩, ⟨_, hf, hfz⟩⟩ :=
    backward_last_first_one_row Real.sqrt (specScenario ℝ) (bufOfList [1]) (fun _ => 9) [0, 3] []
      rfl (by decide) 0 (by decide)
  have hl2 := hl 0 (by decide) (by decide)
  have hl0 := hlz 0 (by decide) (by decide) (fun j hj => by
    have hj0 : j = 0 := by simp at hj; omega
    subst hj0; decide) 0 (by decide) (by decide)
  have hl1 := hlz 1 (by decide) (by decide) (fun j hj => by
    have hj0 : j = 0 := by simp at hj; omega
    subst hj0; decide) 0 (by decide) (by decide)
  have hf0 := hf 0 (by decide) (by decide)
  have hf1 := hfz 1 (by decide) (by decide) (fun j hj => by
    have hj0 : j = 0 := by simp at hj; omega
    subst hj0; decide) 0 (by decide) (by decide)
  have hf2 := hfz 2 (by decide) (by decide) (fun j hj => by
    have hj0 : j = 0 := by simp at hj; omega
    subst hj0; decide) 0 (by decide) (by decide)
  simp only [hw3] at hl0 hl1 hl2 hf0 hf1 hf2
  norm_num [bufOfList] at hl0 hl1 hl2 hf0 hf1 hf2
  exact ⟨⟨hl0, hl1, hl2⟩, hf0, hf1, hf2⟩

/-- C8: backward SUM, AVERAGE and SQRT broadcast the output gradient. For a valid offsets table
with every length at least 1, whatever the input gradient buffer holds on entry, each sequence
`i`, each row `r` of `[offsets[i], offsets[i+1])` and each column `c`, the gradient kernel
completes and leaves `inputGrad[r][c] = outGrad[i][c]` for SUM, `outGrad[i][c] / h` for AVERAGE
and `outGrad[i][c] / sqrt h` for SQRT, with `h = offsets[i+1] - offsets[i]`. -/
theorem backward_sum_average_sqrt_broadcast (sqrt : α → α) (inp : LoDTensor α)
    (out_g in_g : Int → α) (lod0 : List Nat) (levels : List (List Nat))
    (hlod : inp.lod = lod0 :: levels) (hvalid : ValidOffsets lod0 inp.dims0)
    (i : Nat) (hi : i + 1 < lod0.length) (r : Nat) (hr1 : lod0.getD i 0 ≤ r)
    (hr2 : r < lod0.getD (i + 1) 0) (c : Int) (hc0 : 0 ≤ c) (hc : c < inp.width) :
    let h : Int := (lod0.getD (i + 1) 0 : Int) - (lod0.getD i 0 : Int)
    ((SequencePoolGradKernel.Compute sqrt inp out_g in_g "SUM").failure = none ∧
      (SequencePoolGradKernel.Compute sqrt inp out_g in_g "SUM").state
        ((r : Int) * inp.width + c) = out_g ((i : Int) * inp.width + c)) ∧
    ((SequencePoolGradKernel.Compute sqrt inp out_g in_g "AVERAGE").failure = none ∧
      (SequencePoolGradKernel.Compute sqrt inp out_g in_g "AVERAGE").state
        ((r : Int) * inp.width + c) = out_g ((i : Int) * inp.width + c) / (h : α)) ∧
    ((SequencePoolGradKernel.Compute sqrt inp out_g in_g "SQRT").failure = none ∧
      (SequencePoolGradKernel.Compute sqrt inp out_g in_g "SQRT").state
        ((r : Int) * inp.width + c) = out_g ((i : Int) * inp.width + c) / sqrt (h : α)) := by
  intro h
  have hd : inp.dims0 ≠ 0 := ne_of_gt (hvalid.rows_pos hi)
  refine ⟨?_, ?_, ?_⟩
  · rw [SequencePoolGradKernel.grad_Compute_eq sqrt inp out_g in_g "SUM" lod0 levels hlod hd]
    have := forLoop_assignMatrix inp.width lod0 inp.dims0 hvalid _ _ in_g
      (SequencePoolGradKernel.grad_body_SUM sqrt inp.data out_g inp.width lod0) (lod0.length - 1)
      (le_refl _)
    rw [if_neg (by decide)]
    exact ⟨this.1, this.2 i (by omega) r hr1 hr2 c hc0 hc⟩
  · rw [SequencePoolGradKernel.grad_Compute_eq sqrt inp out_g in_g "AVERAGE" lod0 levels hlod hd]
    have := forLoop_assignMatrix inp.width lod0 inp.dims0 hvalid _ _ in_g
      (SequencePoolGradKernel.grad_body_AVERAGE sqrt inp.data out_g inp.width lod0) (lod0.length - 1)
      (le_refl _)
    rw [if_neg (by decide)]
    exact ⟨this.1, this.2 i (by omega) r hr1 hr2 c hc0 hc⟩
  · rw [SequencePoolGradKernel.grad_Compute_eq sqrt inp out_g in_g "SQRT" lod0 levels hlod hd]
    have := forLoop_assignMatrix inp.width lod0 inp.dims0 hvalid _ _ in_g
      (SequencePoolGradKernel.grad_body_SQRT sqrt inp.data out_g inp.width lod0) (lod0.length - 1)
      (le_refl _)
    rw [if_neg (by decide)]
    exact ⟨this.1, this.2 i (by omega) r hr1 hr2 c hc0 hc⟩

/-- Witness of C8 on the scenario of the specification: offsets `[0, 3]` and `outGrad = [1]`
give, at row 2 as at every row, the input gradient 1 for SUM, 1/3 for AVERAGE and `1 / sqrt 3`
for SQRT, here from a buffer that held 9 everywhere. -/
theorem backward_sum_average_sqrt_broadcast_witness :
    (SequencePoolGradKernel.Compute Real.sqrt (specScenario ℝ) (bufOfList [1]) (fun _ => 9)
      "SUM").state 2 = 1 ∧
    (SequencePoolGradKernel.Compute Real.sqrt (specScenario ℝ) (bufOfList [1]) (fun _ => 9)
      "AVERAGE").state 2 = 1 / 3 ∧
    (SequencePoolGradKernel.Compute Real.sqrt (specScenario ℝ) (bufOfList [1]) (fun _ => 9)
      "SQRT").state 2 = 1 / Real.sqrt 3 := by
  have hw3 : (specScenario ℝ).width = 1 := by decide
  have h := backward_sum_average_sqrt_broadcast Real.sqrt (specScenario ℝ) (bufOfList [1])
    (fun _ => 9) [0, 3] [] rfl (by decide) 0 (by decide) 2 (by decide) (by decide) 0
    (by decide) (by decide)
  simp only [hw3, Nat.cast_zero, zero_mul, mul_one, add_zero] at h
  norm_num [bufOfList] at h
  exact ⟨h.1.2, h.2.1.2.trans (by norm_num), h.2.2.2.trans (by norm_num)⟩

/-- C9 (as amended): for every input with `dims[0] ≠ 0` the forward kernel fails with ShapeError
when more than one offsets level is supplied, and fails with ShapeError when exactly one level
is supplied and `total_rows < batch_size` (`batch_size = len(offsets) - 1`); and for every
input, when exactly one level is supplied and `total_rows >= batch_size`, it does not fail
with ShapeError. -/
theorem forward_shape_error (sqrt : α → α) (lowest : α) (inp out : LoDTensor α)
    (pooltype : String) :
    (inp.dims0 ≠ 0 →
      (1 < inp.lod.length →
        (SequencePoolKernel.Compute sqrt lowest inp out pooltype).failure =
          some Failure.shapeError) ∧
      (∀ lod0 : List Nat, inp.lod = [lod0] → inp.dims0 < (lod0.length : Int) - 1 →
        (SequencePoolKernel.Compute sqrt lowest inp out pooltype).failure =
          some Failure.shapeError)) ∧
    (∀ lod0 : List Nat, inp.lod = [lod0] → (lod0.length : Int) - 1 ≤ inp.dims0 →
      (SequencePoolKernel.Compute sqrt lowest inp out pooltype).failure ≠
        some Failure.shapeError) := by
  refine ⟨fun hd => ⟨fun hl => ?_, fun lod0 hlod hlt => ?_⟩, fun lod0 hlod hge => ?_⟩
  · unfold SequencePoolKernel.Compute
    rw [if_neg hd]
    simp only
    rw [if_pos (by omega)]
  · unfold SequencePoolKernel.Compute
    rw [if_neg hd]
    simp [hlod, hlt]
  · by_cases hd : inp.dims0 = 0
    · unfold SequencePoolKernel.Compute
      rw [if_pos hd]
      simp
    · rw [SequencePoolKernel.pool_Compute_eq sqrt lowest inp out pooltype lod0 hlod hd hge]
      exact forLoop_failure _ _ _ (SequencePoolKernel.pool_body_failure sqrt lowest pooltype _ _ _) _

/-- Witness of C9 (as amended): with three rows, two offsets levels are refused with ShapeError;
with one row, the offsets `[0, 1, 1, 1]` of three sequences are refused with ShapeError. -/
theorem forward_shape_error_witness :
    (SequencePoolKernel.Compute Real.sqrt 0 (twoLevelScenario ℝ) (blankOut ℝ) "SUM").failure =
        some Failure.shapeError ∧
    (SequencePoolKernel.Compute Real.sqrt 0 (crowdedScenario ℝ) (blankOut ℝ) "SUM").failure =
        some Failure.shapeError :=
  ⟨((forward_shape_error Real.sqrt 0 (twoLevelScenario ℝ) (blankOut ℝ) "SUM").1
      (by decide)).1 (by decide),
   ((forward_shape_error Real.sqrt 0 (crowdedScenario ℝ) (blankOut ℝ) "SUM").1
      (by decide)).2 [0, 1, 1, 1] rfl (by decide)⟩

/-- Counterexample to C9 as stated: on an input with no rows (`dims[0] = 0`) and two offsets
levels the forward kernel does not fail with ShapeError; the division `numel() / dims[0]` of
line 42 comes before the checks of lines 45 to 49 and divides by zero. -/
theorem forward_shape_error_counterexample :
    1 < (emptyTwoLevel ℚ).lod.length ∧
    (SequencePoolKernel.Compute id 0 (emptyTwoLevel ℚ) (blankOut ℚ) "SUM").failure =
        some Failure.undefinedBehaviour ∧
    (SequencePoolKernel.Compute id 0 (emptyTwoLevel ℚ) (blankOut ℚ) "SUM").failure ≠
        some Failure.shapeError := by
  refine ⟨by decide, ?_, ?_⟩ <;> simp [SequencePoolKernel.Compute, emptyTwoLevel]

/-- C10: output shape. For every supported policy and every input with one offsets level,
`total_rows >= batch_size` and `total_rows >= 1`, the forward kernel completes and leaves an
output with `batch_size = len(offsets) - 1` rows and the trailing dimensions of the input; its
row width, when it has a row, is the row width of the input. -/
theorem forward_output_shape (sqrt : α → α) (lowest : α) (inp out : LoDTensor α)
    (pooltype : String) (hp : pooltype ∈ supportedPoolTypes) (lod0 : List Nat)
    (hlod : inp.lod = [lod0]) (hrows : (lod0.length : Int) - 1 ≤ inp.dims0)
    (hpos : 1 ≤ inp.dims0) :
    (SequencePoolKernel.Compute sqrt lowest inp out pooltype).failure = none ∧
    (SequencePoolKernel.Compute sqrt lowest inp out pooltype).state.dims0 =
      (lod0.length : Int) - 1 ∧
    (SequencePoolKernel.Compute sqrt lowest inp out pooltype).state.rest = inp.rest ∧
    ((lod0.length : Int) - 1 ≠ 0 →
      (SequencePoolKernel.Compute sqrt lowest inp out pooltype).state.width = inp.width) := by
  have hd : inp.dims0 ≠ 0 := by omega
  rw [SequencePoolKernel.pool_Compute_eq sqrt lowest inp out pooltype lod0 hlod hd hrows]
  refine ⟨?_, rfl, rfl, fun hb => ?_⟩
  · exact (forLoop_total _ _
      (SequencePoolKernel.pool_body_supported sqrt lowest pooltype hp inp.data inp.width lod0) _).1
  · rw [LoDTensor.width_eq _ hb, LoDTensor.width_eq _ hd]

/-- Witness of C10 on the multi-sequence scenario of the specification: five rows in two
sequences give an output of two rows with the trailing dimension 1 of the input. -/
theorem forward_output_shape_witness :
    (SequencePoolKernel.Compute Real.sqrt 0 (multiScenario ℝ) (blankOut ℝ) "MAX").failure = none ∧
    (SequencePoolKernel.Compute Real.sqrt 0 (multiScenario ℝ) (blankOut ℝ) "MAX").state.dims0 = 2 ∧
    (SequencePoolKernel.Compute Real.sqrt 0 (multiScenario ℝ) (blankOut ℝ) "MAX").state.rest
      = [1] := by
  have h := forward_output_shape Real.sqrt 0 (multiScenario ℝ) (blankOut ℝ) "MAX" (by decide)
    [0, 2, 5] rfl (by decide) (by decide)
  refine ⟨h.1, ?_, h.2.2.1⟩
  rw [h.2.1]
  norm_num

/-- C11 (as amended): errors and the buffers. Whenever the forward kernel fails with ShapeError
the output tensor is as it was on entry, shape and elements. Whenever it fails with
UnsupportedPoolTypeError no element of the output has been written, and its shape has by then
been resized to `batch_size = len(offsets) - 1` rows with the trailing dimensions of the input.
Whenever the gradient kernel fails with UnsupportedPoolTypeError no element of the input
gradient buffer has been written. -/
theorem errors_and_buffers (sqrt : α → α) (lowest : α) (inp out : LoDTensor α)
    (out_g in_g : Int → α) (pooltype : String) :
    ((SequencePoolKernel.Compute sqrt lowest inp out pooltype).failure =
        some Failure.shapeError →
      (SequencePoolKernel.Compute sqrt lowest inp out pooltype).state = out) ∧
    ((SequencePoolKernel.Compute sqrt lowest inp out pooltype).failure =
        some Failure.unsupportedPoolType →
      (SequencePoolKernel.Compute sqrt lowest inp out pooltype).state.data = out.data ∧
      (SequencePoolKernel.Compute sqrt lowest inp out pooltype).state.dims0 =
        ((inp.lod.headD []).length : Int) - 1 ∧
      (SequencePoolKernel.Compute sqrt lowest inp out pooltype).state.rest = inp.rest) ∧
    ((SequencePoolGradKernel.Compute sqrt inp out_g in_g pooltype).failure =
        some Failure.unsupportedPoolType →
      (SequencePoolGradKernel.Compute sqrt inp out_g in_g pooltype).state = in_g) := by
  refine ⟨?_, ?_, ?_⟩
  · by_cases hd : inp.dims0 = 0
    · simp [SequencePoolKernel.Compute, hd]
    · by_cases hl : inp.lod.length = 1
      · obtain ⟨lod0, hlod⟩ := List.length_eq_one.mp hl
        by_cases hb : inp.dims0 < (lod0.length : Int) - 1
        · simp [SequencePoolKernel.Compute, hd, hlod, hb]
        · rw [SequencePoolKernel.pool_Compute_eq sqrt lowest inp out pooltype lod0 hlod hd
            (by omega)]
          intro h
          exact absurd h (forLoop_failure _ _ _
            (SequencePoolKernel.pool_body_failure sqrt lowest pooltype _ _ _) _)
      · simp [SequencePoolKernel.Compute, hd, hl]
  · by_cases hd : inp.dims0 = 0
    · simp [SequencePoolKernel.Compute, hd]
    · by_cases hl : inp.lod.length = 1
      · obtain ⟨lod0, hlod⟩ := List.length_eq_one.mp hl
        by_cases hb : inp.dims0 < (lod0.length : Int) - 1
        · simp [SequencePoolKernel.Compute, hd, hlod, hb]
        · rw [SequencePoolKernel.pool_Compute_eq sqrt lowest inp out pooltype lod0 hlod hd
            (by omega)]
          intro h
          by_cases hp : pooltype ∈ supportedPoolTypes
          · have := (forLoop_total _ out.data
              (SequencePoolKernel.pool_body_supported sqrt lowest pooltype hp inp.data inp.width
                lod0) (lod0.length - 1)).1
            simp [this] at h
          · refine ⟨?_, by simp [hlod], rfl⟩
            exact forLoop_state_of_throw _ _ _
              (SequencePoolKernel.pool_body_unsupported sqrt lowest pooltype hp inp.data
                inp.width lod0) _
      · simp [SequencePoolKernel.Compute, hd, hl]
  · cases hlod : inp.lod with
    | nil => simp [SequencePoolGradKernel.Compute, hlod]
    | cons lod0 levels =>
      by_cases hd : inp.dims0 = 0
      · simp [SequencePoolGradKernel.Compute, hlod, hd]
      · rw [SequencePoolGradKernel.grad_Compute_eq sqrt inp out_g in_g pooltype lod0 levels hlod
          hd]
        intro h
        by_cases hp : pooltype ∈ supportedPoolTypes
        · have := (forLoop_total _ (if pooltype = "LAST" ∨ pooltype = "FIRST" then
              SetConstant inp.numel 0 in_g else in_g)
            (SequencePoolGradKernel.grad_body_supported sqrt pooltype hp inp.data out_g inp.width
              lod0) (lod0.length - 1)).1
          simp [this] at h
        · have hno : ¬ (pooltype = "LAST" ∨ pooltype = "FIRST") := by
            intro h'
            apply hp
            rcases h' with h' | h' <;> subst h' <;> decide
          rw [if_neg hno]
          exact forLoop_state_of_throw _ _ _
            (SequencePoolGradKernel.grad_body_unsupported sqrt pooltype hp inp.data out_g
              inp.width lod0) _

/-- Witness of C11 (as amended): two offsets levels make the forward kernel fail with ShapeError
and leave the output as it was; on the scenario of the specification the pooltype `"MEDIAN"`
makes both kernels fail with UnsupportedPoolTypeError, with no element written. -/
theorem errors_and_buffers_witness :
    (SequencePoolKernel.Compute Real.sqrt 0 (twoLevelScenario ℝ) (blankOut ℝ) "SUM").state =
        blankOut ℝ ∧
    (SequencePoolKernel.Compute Real.sqrt 0 (specScenario ℝ) (blankOut ℝ) "MEDIAN").state.data =
        (blankOut ℝ).data ∧
    (SequencePoolGradKernel.Compute Real.sqrt (specScenario ℝ) (bufOfList [1]) (fun _ => 9)
        "MEDIAN").state = fun _ => 9 :=
  ⟨(errors_and_buffers Real.sqrt 0 (twoLevelScenario ℝ) (blankOut ℝ) (bufOfList [1])
      (fun _ => 9) "SUM").1 (by simp [SequencePoolKernel.Compute, twoLevelScenario]),
   ((errors_and_buffers Real.sqrt 0 (specScenario ℝ) (blankOut ℝ) (bufOfList [1])
      (fun _ => 9) "MEDIAN").2.1
        (by simp [SequencePoolKernel.Compute, SequencePoolKernel.body, specScenario, forLoop,
          List.range_succ])).1,
   (errors_and_buffers Real.sqrt 0 (specScenario ℝ) (blankOut ℝ) (bufOfList [1])
      (fun _ => 9) "MEDIAN").2.2
        (by simp [SequencePoolGradKernel.Compute, SequencePoolGradKernel.body, specScenario,
          forLoop, List.range_succ])⟩

/-- Counterexample to C11 as stated: on the scenario of the specification with the pooltype
`"MEDIAN"` the forward kernel fails with UnsupportedPoolTypeError after the resize of lines 50
and 51: the output, of shape `[0]` on entry, is left with shape `[1, 1]`. -/
theorem errors_and_buffers_counterexample :
    (SequencePoolKernel.Compute id 0 (specScenario ℚ) (blankOut ℚ) "MEDIAN").failure =
        some Failure.unsupportedPoolType ∧
    (blankOut ℚ).dims0 = 0 ∧ (blankOut ℚ).rest = [] ∧
    (SequencePoolKernel.Compute id 0 (specScenario ℚ) (blankOut ℚ) "MEDIAN").state.dims0 = 1 ∧
    (SequencePoolKernel.Compute id 0 (specScenario ℚ) (blankOut ℚ) "MEDIAN").state.rest = [1] := by
  refine ⟨?_, ?_, ?_, ?_, ?_⟩ <;> decide

/-- C12: the AVERAGE gradient is the SUM gradient divided by `h`. For a valid offsets table with
every length at least 1, every output gradient, whatever the input gradient buffers hold on
entry, each sequence `i`, each row `r` of `[offsets[i], offsets[i+1])` and each column `c`, both
runs of the gradient kernel complete and
`Backward_AVERAGE[r][c] = Backward_SUM[r][c] / h_i` with `h_i = offsets[i+1] - offsets[i]`. -/
theorem backward_average_is_sum_over_h (sqrt : α → α) (inp : LoDTensor α)
    (out_g in_g in_g' : Int → α) (lod0 : List Nat) (levels : List (List Nat))
    (hlod : inp.lod = lod0 :: levels) (hvalid : ValidOffsets lod0 inp.dims0)
    (i : Nat) (hi : i + 1 < lod0.length) (r : Nat) (hr1 : lod0.getD i 0 ≤ r)
    (hr2 : r < lod0.getD (i + 1) 0) (c : Int) (hc0 : 0 ≤ c) (hc : c < inp.width) :
    let h : Int := (lod0.getD (i + 1) 0 : Int) - (lod0.getD i 0 : Int)
    (SequencePoolGradKernel.Compute sqrt inp out_g in_g "AVERAGE").failure = none ∧
    (SequencePoolGradKernel.Compute sqrt inp out_g in_g' "SUM").failure = none ∧
    (SequencePoolGradKernel.Compute sqrt inp out_g in_g "AVERAGE").state
        ((r : Int) * inp.width + c) =
      (SequencePoolGradKernel.Compute sqrt inp out_g in_g' "SUM").state
        ((r : Int) * inp.width + c) / (h : α) := by
  intro h
  obtain ⟨ha, hav⟩ := SequencePoolGradKernel.grad_matrix_entry sqrt inp out_g in_g "AVERAGE"
    lod0 levels hlod hvalid (by decide) _
    (SequencePoolGradKernel.grad_body_AVERAGE sqrt inp.data out_g inp.width lod0)
    i hi r hr1 hr2 c hc0 hc
  obtain ⟨hs, hsv⟩ := SequencePoolGradKernel.grad_matrix_entry sqrt inp out_g in_g' "SUM"
    lod0 levels hlod hvalid (by decide) _
    (SequencePoolGradKernel.grad_body_SUM sqrt inp.data out_g inp.width lod0)
    i hi r hr1 hr2 c hc0 hc
  exact ⟨ha, hs, by rw [hav, hsv]⟩

/-- Witness of C12 on the scenario of the specification: offsets `[0, 3]` and `outGrad = [1]`
give at row 1 the SUM gradient 1 and the AVERAGE gradient `1 / 3`. -/
theorem backward_average_is_sum_over_h_witness :
    (SequencePoolGradKernel.Compute Real.sqrt (specScenario ℝ) (bufOfList [1]) (fun _ => 9)
        "AVERAGE").state 1 =
      (SequencePoolGradKernel.Compute Real.sqrt (specScenario ℝ) (bufOfList [1]) (fun _ => 0)
        "SUM").state 1 / 3 := by
  have hw3 : (specScenario ℝ).width = 1 := by decide
  have h := backward_average_is_sum_over_h Real.sqrt (specScenario ℝ) (bufOfList [1])
    (fun _ => 9) (fun _ => 0) [0, 3] [] rfl (by decide) 0 (by decide) 1 (by decide) (by decide) 0
    (by decide) (by decide)
  simp only [hw3] at h
  norm_num at h
  exact h.2.2

/-- C13 (as amended): AVERAGE, SUM and SQRT backward need no pre-zeroing on the rows of the
sequences. For a valid offsets table (values within `[0, total_rows]`, every length at least 1,
not required to start at row 0 or to end at `total_rows`) and the policies AVERAGE, SUM and
SQRT, two runs of the gradient kernel that differ only in the initial content of the input
gradient buffer both complete and agree on every row of `[offsets[0], offsets[batch_size])`;
when the table starts at row 0 and ends at `total_rows` they agree on every row of the
buffer. -/
theorem backward_linear_needs_no_zeroing (sqrt : α → α) (inp : LoDTensor α)
    (out_g in_g in_g' : Int → α) (pooltype : String)
    (hp : pooltype ∈ ["AVERAGE", "SUM", "SQRT"]) (lod0 : List Nat) (levels : List (List Nat))
    (hlod : inp.lod = lod0 :: levels) (hvalid : ValidOffsets lod0 inp.dims0)
    (hrows : 1 ≤ inp.dims0) :
    (SequencePoolGradKernel.Compute sqrt inp out_g in_g pooltype).failure = none ∧
    (SequencePoolGradKernel.Compute sqrt inp out_g in_g' pooltype).failure = none ∧
    (∀ r : Nat, lod0.getD 0 0 ≤ r → r < lod0.getD (lod0.length - 1) 0 →
      ∀ c : Int, 0 ≤ c → c < inp.width →
        (SequencePoolGradKernel.Compute sqrt inp out_g in_g pooltype).state
            ((r : Int) * inp.width + c) =
          (SequencePoolGradKernel.Compute sqrt inp out_g in_g' pooltype).state
            ((r : Int) * inp.width + c)) ∧
    (lod0.getD 0 0 = 0 → (lod0.getD (lod0.length - 1) 0 : Int) = inp.dims0 →
      ∀ r : Int, 0 ≤ r → r < inp.dims0 → ∀ c : Int, 0 ≤ c → c < inp.width →
        (SequencePoolGradKernel.Compute sqrt inp out_g in_g pooltype).state (r * inp.width + c) =
          (SequencePoolGradKernel.Compute sqrt inp out_g in_g' pooltype).state
            (r * inp.width + c)) := by
  have hno : ¬ (pooltype = "LAST" ∨ pooltype = "FIRST") := by
    simp only [List.mem_cons, List.mem_singleton, List.not_mem_nil, or_false] at hp
    rcases hp with h | h | h <;> subst h <;> decide
  have hsup : pooltype ∈ supportedPoolTypes := by
    simp only [List.mem_cons, List.mem_singleton, List.not_mem_nil, or_false] at hp
    rcases hp with h | h | h <;> subst h <;> decide
  have hd : inp.dims0 ≠ 0 := by omega
  have hfail : ∀ g : Int → α,
      (SequencePoolGradKernel.Compute sqrt inp out_g g pooltype).failure = none := by
    intro g
    rw [SequencePoolGradKernel.grad_Compute_eq sqrt inp out_g g pooltype lod0 levels hlod hd]
    exact (forLoop_total _ _
      (SequencePoolGradKernel.grad_body_supported sqrt pooltype hsup inp.data out_g inp.width
        lod0) _).1
  have hm : ∃ m : Nat → Int → Int → α, ∀ s i,
      SequencePoolGradKernel.body sqrt pooltype inp.data out_g inp.width lod0 s i =
        ⟨assignMatrix ((lod0.getD i 0 : Int) * inp.width)
          ((lod0.getD (i + 1) 0 : Int) - (lod0.getD i 0 : Int)) inp.width (m i) s, none⟩ := by
    simp only [List.mem_cons, List.mem_singleton, List.not_mem_nil, or_false] at hp
    rcases hp with h | h | h <;> subst h
    · exact ⟨_, SequencePoolGradKernel.grad_body_AVERAGE sqrt inp.data out_g inp.width lod0⟩
    · exact ⟨_, SequencePoolGradKernel.grad_body_SUM sqrt inp.data out_g inp.width lod0⟩
    · exact ⟨_, SequencePoolGradKernel.grad_body_SQRT sqrt inp.data out_g inp.width lod0⟩
  obtain ⟨m, hbody⟩ := hm
  have hcov : ∀ r : Nat, lod0.getD 0 0 ≤ r → r < lod0.getD (lod0.length - 1) 0 →
      ∀ c : Int, 0 ≤ c → c < inp.width →
        (SequencePoolGradKernel.Compute sqrt inp out_g in_g pooltype).state
            ((r : Int) * inp.width + c) =
          (SequencePoolGradKernel.Compute sqrt inp out_g in_g' pooltype).state
            ((r : Int) * inp.width + c) := by
    intro r hr1 hr2 c hc0 hc
    have hlen := hvalid.1
    obtain ⟨i, hi, h1, h2⟩ := offsets_covered lod0 r (lod0.length - 1) hr1 hr2
    rw [(SequencePoolGradKernel.grad_matrix_entry sqrt inp out_g in_g pooltype lod0 levels hlod
        hvalid hno m hbody i (by omega) r h1 h2 c hc0 hc).2,
      (SequencePoolGradKernel.grad_matrix_entry sqrt inp out_g in_g' pooltype lod0 levels hlod
        hvalid hno m hbody i (by omega) r h1 h2 c hc0 hc).2]
  refine ⟨hfail in_g, hfail in_g', hcov, ?_⟩
  intro h0 hlast r hr0 hr c hc0 hc
  have := hcov r.toNat (by omega) (by omega) c hc0 hc
  rwa [Int.toNat_of_nonneg hr0] at this

/-- Witness of C13 (as amended) on the scenario of the specification: offsets `[0, 3]` cover
the three rows, and the SUM gradient at row 0 is the same from a buffer of nines as from a
buffer of zeros. -/
theorem backward_linear_needs_no_zeroing_witness :
    (SequencePoolGradKernel.Compute Real.sqrt (specScenario ℝ) (bufOfList [1]) (fun _ => 9)
        "SUM").state 0 =
      (SequencePoolGradKernel.Compute Real.sqrt (specScenario ℝ) (bufOfList [1]) (fun _ => 0)
        "SUM").state 0 := by
  have hw3 : (specScenario ℝ).width = 1 := by decide
  have h := (backward_linear_needs_no_zeroing Real.sqrt (specScenario ℝ) (bufOfList [1])
    (fun _ => 9) (fun _ => 0) "SUM" (by decide) [0, 3] [] rfl (by decide) (by decide)).2.2.2
    rfl rfl 0 (by decide) (by decide) 0 (by decide) (by decide)
  simp only [hw3] at h
  norm_num at h
  exact h

/-- Counterexample to C13 as stated: three rows with the valid offsets `[0, 2]`, which end
before `total_rows`. The SUM gradient writes rows 0 and 1 only; row 2 keeps the initial
content, 9 in one run and 0 in the other, so the two runs do not produce the same buffer. -/
theorem backward_linear_needs_no_zeroing_counterexample :
    ValidOffsets [0, 2] (partialCoverScenario ℚ).dims0 ∧
    (SequencePoolGradKernel.Compute id (partialCoverScenario ℚ) (bufOfList [1]) (fun _ => 9)
        "SUM").failure = none ∧
    (SequencePoolGradKernel.Compute id (partialCoverScenario ℚ) (bufOfList [1]) (fun _ => 9)
        "SUM").state 2 = 9 ∧
    (SequencePoolGradKernel.Compute id (partialCoverScenario ℚ) (bufOfList [1]) (fun _ => 0)
        "SUM").state 2 = 0 := by
  refine ⟨?_, ?_, ?_, ?_⟩ <;> decide

/-- C14: sequences are processed independently. Take a supported policy, a valid offsets table
with every length at least 1 and two inputs of the same shape and offsets that agree on all
rows of `[offsets[i], offsets[i+1])`. Then the forward kernel completes on both and yields the
same output row `i`; and if the two output gradients agree on row `i` and the input gradient
buffers start with equal content, the gradient kernel completes on both and the resulting
slices `inputGrad[offsets[i]:offsets[i+1], :]` are equal. -/
theorem sequences_processed_independently (sqrt : α → α) (lowest : α)
    (inp inp' out out' : LoDTensor α) (out_g out_g' in_g : Int → α) (pooltype : String)
    (hp : pooltype ∈ supportedPoolTypes) (lod0 : List Nat) (hlod : inp.lod = [lod0])
    (hlod' : inp'.lod = [lod0]) (hdims : inp'.dims0 = inp.dims0) (hrest : inp'.rest = inp.rest)
    (hvalid : ValidOffsets lod0 inp.dims0) (i : Nat) (hi : i + 1 < lod0.length)
    (hin : ∀ r : Nat, lod0.getD i 0 ≤ r → r < lod0.getD (i + 1) 0 →
      ∀ c : Int, 0 ≤ c → c < inp.width →
        inp.data ((r : Int) * inp.width + c) = inp'.data ((r : Int) * inp.width + c)) :
    ((SequencePoolKernel.Compute sqrt lowest inp out pooltype).failure = none ∧
      (SequencePoolKernel.Compute sqrt lowest inp' out' pooltype).failure = none ∧
      ∀ c : Int, 0 ≤ c → c < inp.width →
        (SequencePoolKernel.Compute sqrt lowest inp out pooltype).state.data
            ((i : Int) * inp.width + c) =
          (SequencePoolKernel.Compute sqrt lowest inp' out' pooltype).state.data
            ((i : Int) * inp.width + c)) ∧
    ((∀ c : Int, 0 ≤ c → c < inp.width →
        out_g ((i : Int) * inp.width + c) = out_g' ((i : Int) * inp.width + c)) →
      (SequencePoolGradKernel.Compute sqrt inp out_g in_g pooltype).failure = none ∧
      (SequencePoolGradKernel.Compute sqrt inp' out_g' in_g pooltype).failure = none ∧
      ∀ r : Nat, lod0.getD i 0 ≤ r → r < lod0.getD (i + 1) 0 →
        ∀ c : Int, 0 ≤ c → c < inp.width →
          (SequencePoolGradKernel.Compute sqrt inp out_g in_g pooltype).state
              ((r : Int) * inp.width + c) =
            (SequencePoolGradKernel.Compute sqrt inp' out_g' in_g pooltype).state
              ((r : Int) * inp.width + c)) := by
  have hstep := hvalid.2.1 i (by omega)
  have hnum' : inp'.numel = inp.numel := by
    unfold LoDTensor.numel; rw [hdims, hrest]
  have hw' : inp'.width = inp.width := by
    unfold LoDTensor.width; rw [hnum', hdims]
  have hvalid' : ValidOffsets lod0 inp'.dims0 := by rw [hdims]; exact hvalid
  constructor
  · obtain ⟨v, v', hb, hb', hv⟩ := SequencePoolKernel.pool_body_vector sqrt lowest pooltype hp
      inp.width lod0 inp.data inp'.data i hstep hin
    have hF := fun c hc0 hc => SequencePoolKernel.forward_entry sqrt lowest inp out pooltype
      lod0 v hlod hvalid hb i hi c hc0 hc
    have hF' := fun c hc0 hc => SequencePoolKernel.forward_entry sqrt lowest inp' out' pooltype
      lod0 v' hlod' hvalid' (by rw [hw']; exact hb') i hi c hc0 hc
    rw [hw'] at hF'
    by_cases hwpos : 0 < inp.width
    · refine ⟨(hF 0 (le_refl _) hwpos).1, (hF' 0 (le_refl _) hwpos).1, fun c hc0 hc => ?_⟩
      rw [(hF c hc0 hc).2, (hF' c hc0 hc).2, hv c hc0 hc]
    · have hd : inp.dims0 ≠ 0 := ne_of_gt (hvalid.rows_pos hi)
      refine ⟨?_, ?_, fun c hc0 hc => by omega⟩
      · rw [SequencePoolKernel.pool_Compute_eq sqrt lowest inp out pooltype lod0 hlod hd
          hvalid.batch_le]
        exact (forLoop_total _ _
          (SequencePoolKernel.pool_body_supported sqrt lowest pooltype hp inp.data inp.width
            lod0) _).1
      · rw [SequencePoolKernel.pool_Compute_eq sqrt lowest inp' out' pooltype lod0 hlod'
          (by rw [hdims]; exact hd) hvalid'.batch_le]
        exact (forLoop_total _ _
          (SequencePoolKernel.pool_body_supported sqrt lowest pooltype hp inp'.data inp'.width
            lod0) _).1
  · intro hog
    have hB := fun k hk => SequencePoolGradKernel.grad_slice_entry sqrt inp out_g in_g pooltype
      hp lod0 [] hlod hvalid i hi k hk
    have hB' := fun k hk => SequencePoolGradKernel.grad_slice_entry sqrt inp' out_g' in_g
      pooltype hp lod0 [] hlod' hvalid' i hi k hk
    rw [hw', hnum'] at hB'
    have hd : inp.dims0 ≠ 0 := ne_of_gt (hvalid.rows_pos hi)
    refine ⟨?_, ?_, fun r hr1 hr2 c hc0 hc => ?_⟩
    · rw [SequencePoolGradKernel.grad_Compute_eq sqrt inp out_g in_g pooltype lod0 [] hlod hd]
      exact (forLoop_total _ _
        (SequencePoolGradKernel.grad_body_supported sqrt pooltype hp inp.data out_g inp.width
          lod0) _).1
    · rw [SequencePoolGradKernel.grad_Compute_eq sqrt inp' out_g' in_g pooltype lod0 [] hlod'
        (by rw [hdims]; exact hd)]
      exact (forLoop_total _ _
        (SequencePoolGradKernel.grad_body_supported sqrt pooltype hp inp'.data out_g'
          inp'.width lod0) _).1
    · have hk := inSlice_of_row lod0 inp.width i r c hr1 hr2 hc0 hc
      rw [(hB _ hk).2, (hB' _ hk).2]
      exact SequencePoolGradKernel.grad_body_slice_congr sqrt pooltype hp inp.width lod0
        inp.dims0 hvalid inp.data inp'.data out_g out_g' _ i hi hin hog r hr1 hr2 c hc0 hc

/-- Witness of C14: over the offsets `[0, 2, 5]` the inputs `[1, 3, 2, 4, 6]` and
`[1, 3, 9, 9, 9]` agree on the rows 0 and 1 of sequence 0, and the forward MAX output of
sequence 0 is the same for both. -/
theorem sequences_processed_independently_witness :
    (SequencePoolKernel.Compute Real.sqrt 0 (multiScenario ℝ) (blankOut ℝ) "MAX").state.data 0 =
      (SequencePoolKernel.Compute Real.sqrt 0 (otherTailScenario ℝ) (blankOut ℝ)
        "MAX").state.data 0 := by
  have hw : (multiScenario ℝ).width = 1 := by decide
  have h := (sequences_processed_independently Real.sqrt 0 (multiScenario ℝ)
    (otherTailScenario ℝ) (blankOut ℝ) (blankOut ℝ)
    (bufOfList [1, 1]) (bufOfList [1, 1]) (fun _ => 0) "MAX" (by decide) [0, 2, 5] rfl rfl rfl
    rfl (by decide) 0 (by decide)
    (fun r hr1 hr2 c hc0 hc => by
      rw [hw] at hc ⊢
      have hc' : c = 0 := by omega
      have hr : r = 0 ∨ r = 1 := by simp at hr1 hr2; omega
      subst hc'
      rcases hr with h | h <;> subst h <;>
        simp [multiScenario, otherTailScenario, bufOfList])).1.2.2
    0 (by decide) (by decide)
  simp only [hw] at h
  norm_num at h
  exact h

/-- C16: backward is the adjoint of forward for the linear policies. For each policy of SUM,
AVERAGE, SQRT, FIRST and LAST, every offsets table with `offsets[0] = 0`,
`offsets[batch_size] = total_rows` and every length at least 1, every input `x` and every
output gradient `g`, the sum over sequences `i` and columns `c` of `Forward(x)[i][c] * g[i][c]`
equals the sum over rows `r` and columns `c` of `x[r][c] * Backward(g)[r][c]`. -/
theorem backward_is_adjoint_of_forward (sqrt : α → α) (lowest : α) (inp out : LoDTensor α)
    (out_g in_g : Int → α) (pooltype : String)
    (hp : pooltype ∈ ["SUM", "AVERAGE", "SQRT", "FIRST", "LAST"]) (lod0 : List Nat)
    (hlod : inp.lod = [lod0]) (hvalid : ValidOffsets lod0 inp.dims0)
    (h0 : lod0.getD 0 0 = 0) (hlast : (lod0.getD (lod0.length - 1) 0 : Int) = inp.dims0) :
    ∑ i ∈ Finset.range (lod0.length - 1), ∑ c ∈ Finset.range inp.width.toNat,
        (SequencePoolKernel.Compute sqrt lowest inp out pooltype).state.data
            ((i : Int) * inp.width + ((c : Nat) : Int)) *
          out_g ((i : Int) * inp.width + ((c : Nat) : Int)) =
      ∑ r ∈ Finset.range inp.dims0.toNat, ∑ c ∈ Finset.range inp.width.toNat,
        inp.data ((r : Int) * inp.width + ((c : Nat) : Int)) *
          (SequencePoolGradKernel.Compute sqrt inp out_g in_g pooltype).state
            ((r : Int) * inp.width + ((c : Nat) : Int)) := by
  have hrows : inp.dims0.toNat = lod0.getD (lod0.length - 1) 0 := by omega
  rw [hrows]
  refine adjoint_of_entries lod0 inp.dims0 hvalid h0 inp.width inp.data out_g _ _ ?_
  intro i hi c hc0 hc
  simp only [List.mem_cons, List.mem_singleton, List.not_mem_nil, or_false] at hp
  rcases hp with h | h | h | h | h <;> subst h
  · have hF := (SequencePoolKernel.forward_entry sqrt lowest inp out "SUM" lod0 _ hlod hvalid
      (SequencePoolKernel.pool_body_SUM sqrt lowest inp.data inp.width lod0) i hi c hc0 hc).2
    rw [colSum_slice] at hF
    rw [hF, Finset.sum_mul]
    refine Finset.sum_congr rfl (fun r hr => ?_)
    rw [Finset.mem_Ico] at hr
    rw [(SequencePoolGradKernel.grad_matrix_entry sqrt inp out_g in_g "SUM" lod0 [] hlod hvalid
      (by decide) _ (SequencePoolGradKernel.grad_body_SUM sqrt inp.data out_g inp.width lod0)
      i hi r hr.1 hr.2 c hc0 hc).2]
  · have hF := (SequencePoolKernel.forward_entry sqrt lowest inp out "AVERAGE" lod0 _ hlod
      hvalid (SequencePoolKernel.pool_body_AVERAGE sqrt lowest inp.data inp.width lod0)
      i hi c hc0 hc).2
    rw [colSum_slice] at hF
    rw [hF, div_mul_eq_mul_div, Finset.sum_mul, Finset.sum_div]
    refine Finset.sum_congr rfl (fun r hr => ?_)
    rw [Finset.mem_Ico] at hr
    rw [(SequencePoolGradKernel.grad_matrix_entry sqrt inp out_g in_g "AVERAGE" lod0 [] hlod
      hvalid (by decide) _
      (SequencePoolGradKernel.grad_body_AVERAGE sqrt inp.data out_g inp.width lod0)
      i hi r hr.1 hr.2 c hc0 hc).2, mul_div_assoc]
  · have hF := (SequencePoolKernel.forward_entry sqrt lowest inp out "SQRT" lod0 _ hlod
      hvalid (SequencePoolKernel.pool_body_SQRT sqrt lowest inp.data inp.width lod0)
      i hi c hc0 hc).2
    rw [colSum_slice] at hF
    rw [hF, div_mul_eq_mul_div, Finset.sum_mul, Finset.sum_div]
    refine Finset.sum_congr rfl (fun r hr => ?_)
    rw [Finset.mem_Ico] at hr
    rw [(SequencePoolGradKernel.grad_matrix_entry sqrt inp out_g in_g "SQRT" lod0 [] hlod
      hvalid (by decide) _
      (SequencePoolGradKernel.grad_body_SQRT sqrt inp.data out_g inp.width lod0)
      i hi r hr.1 hr.2 c hc0 hc).2, mul_div_assoc]
  · have hstep := hvalid.2.1 i (by omega)
    have hF := (SequencePoolKernel.forward_entry sqrt lowest inp out "FIRST" lod0 _ hlod
      hvalid (SequencePoolKernel.pool_body_FIRST sqrt lowest inp.data inp.width lod0)
      i hi c hc0 hc).2
    have hB := fun r hr1 hr2 => (SequencePoolGradKernel.grad_row_entry sqrt inp out_g in_g lod0
      [] hlod hvalid i hi r hr1 hr2 c hc0 hc).2
    rw [Finset.sum_eq_single (lod0.getD i 0)]
    · rw [hB _ (le_refl _) hstep, if_pos rfl, hF]
      unfold sliceMatrix
      congr 2
      ring
    · intro r hr hne
      rw [Finset.mem_Ico] at hr
      rw [hB r hr.1 hr.2, if_neg hne, mul_zero]
    · intro hnot
      exact absurd (Finset.mem_Ico.mpr ⟨le_refl _, hstep⟩) hnot
  · have hstep := hvalid.2.1 i (by omega)
    have hF := (SequencePoolKernel.forward_entry sqrt lowest inp out "LAST" lod0 _ hlod
      hvalid (SequencePoolKernel.pool_body_LAST sqrt lowest inp.data inp.width lod0)
      i hi c hc0 hc).2
    have hB := fun r hr1 hr2 => (SequencePoolGradKernel.grad_row_entry sqrt inp out_g in_g lod0
      [] hlod hvalid i hi r hr1 hr2 c hc0 hc).1
    rw [Finset.sum_eq_single (lod0.getD (i + 1) 0 - 1)]
    · rw [hB _ (by omega) (by omega), if_pos (by omega), hF]
      unfold sliceMatrix
      congr 2
      have e : ((lod0.getD (i + 1) 0 - 1 : Nat) : Int) = (lod0.getD (i + 1) 0 : Int) - 1 := by
        omega
      rw [e]
      ring
    · intro r hr hne
      rw [Finset.mem_Ico] at hr
      rw [hB r hr.1 hr.2, if_neg (by omega), mul_zero]
    · intro hnot
      exact absurd (Finset.mem_Ico.mpr ⟨by omega, by omega⟩) hnot

/-- Witness of C16 on the scenario of the specification: offsets `[0, 3]`, rows `[1, 5, 2]` and
`outGrad = [2]`. For SUM the forward output 8 paired with 2 equals the rows paired with the
input gradient `[2, 2, 2]`. -/
theorem backward_is_adjoint_of_forward_witness :
    (SequencePoolKernel.Compute Real.sqrt 0 (specScenario ℝ) (blankOut ℝ) "SUM").state.data 0 * 2 =
      1 * (SequencePoolGradKernel.Compute Real.sqrt (specScenario ℝ) (bufOfList [2]) (fun _ => 0)
          "SUM").state 0 +
        5 * (SequencePoolGradKernel.Compute Real.sqrt (specScenario ℝ) (bufOfList [2])
          (fun _ => 0) "SUM").state 1 +
        2 * (SequencePoolGradKernel.Compute Real.sqrt (specScenario ℝ) (bufOfList [2])
          (fun _ => 0) "SUM").state 2 := by
  have hw3 : (specScenario ℝ).width = 1 := by decide
  have hd3 : (specScenario ℝ).dims0 = 3 := rfl
  have h := backward_is_adjoint_of_forward Real.sqrt 0 (specScenario ℝ) (blankOut ℝ)
    (bufOfList [2]) (fun _ => 0) "SUM" (by decide) [0, 3] rfl (by decide) rfl (by decide)
  have d0 : (specScenario ℝ).data 0 = 1 := by simp [specScenario, bufOfList]
  have d1 : (specScenario ℝ).data 1 = 5 := by simp [specScenario, bufOfList]
  have d2 : (specScenario ℝ).data 2 = 2 := by simp [specScenario, bufOfList]
  have g0 : (bufOfList [2] : Int → ℝ) 0 = 2 := by simp [bufOfList]
  simp only [hw3, hd3] at h
  norm_num [Finset.sum_range_succ, Int.toNat, d0, d1, d2, g0] at h
  linarith

/-- C17: MAX backward conserves the gradient per column. For a valid offsets table with every
length at least 1 and an input gradient buffer that is all zeros on entry, the gradient kernel
with policy MAX completes, and for each sequence `i` and each column `c` the column
`inputGrad[offsets[i]:offsets[i+1], c]` has at most one non-zero entry and its entries sum to
`outGrad[i][c]`. -/
theorem backward_max_conserves_gradient (sqrt : α → α) (inp : LoDTensor α)
    (out_g in_g : Int → α) (lod0 : List Nat) (levels : List (List Nat))
    (hlod : inp.lod = lod0 :: levels) (hvalid : ValidOffsets lod0 inp.dims0)
    (hzero : ∀ k, in_g k = 0) (i : Nat) (hi : i + 1 < lod0.length) (c : Int) (hc0 : 0 ≤ c)
    (hc : c < inp.width) :
    (SequencePoolGradKernel.Compute sqrt inp out_g in_g "MAX").failure = none ∧
    (∀ r₁ r₂ : Nat, lod0.getD i 0 ≤ r₁ → r₁ < lod0.getD (i + 1) 0 →
      lod0.getD i 0 ≤ r₂ → r₂ < lod0.getD (i + 1) 0 →
      (SequencePoolGradKernel.Compute sqrt inp out_g in_g "MAX").state
        ((r₁ : Int) * inp.width + c) ≠ 0 →
      (SequencePoolGradKernel.Compute sqrt inp out_g in_g "MAX").state
        ((r₂ : Int) * inp.width + c) ≠ 0 → r₁ = r₂) ∧
    ∑ r ∈ Finset.Ico (lod0.getD i 0) (lod0.getD (i + 1) 0),
      (SequencePoolGradKernel.Compute sqrt inp out_g in_g "MAX").state
        ((r : Int) * inp.width + c) = out_g ((i : Int) * inp.width + c) := by
  have hstep := hvalid.2.1 i (by omega)
  have hrow := maxCoeff_range
    (fun q => colMajorMap inp.data (lod0.getD i 0 : Int) inp.width
      ((lod0.getD (i + 1) 0 : Int) - (lod0.getD i 0 : Int)) q c)
    ((lod0.getD (i + 1) 0 : Int) - (lod0.getD i 0 : Int)) (by omega)
  have hentry : ∀ r : Nat, lod0.getD i 0 ≤ r → r < lod0.getD (i + 1) 0 →
      (SequencePoolGradKernel.Compute sqrt inp out_g in_g "MAX").state
        ((r : Int) * inp.width + c) =
      if (r : Int) - (lod0.getD i 0 : Int) =
          maxCoeff (fun q => colMajorMap inp.data (lod0.getD i 0 : Int) inp.width
            ((lod0.getD (i + 1) 0 : Int) - (lod0.getD i 0 : Int)) q c)
            ((lod0.getD (i + 1) 0 : Int) - (lod0.getD i 0 : Int))
      then out_g ((i : Int) * inp.width + c) else 0 := by
    intro r hr1 hr2
    rw [(SequencePoolGradKernel.grad_slice_entry sqrt inp out_g in_g "MAX" (by decide) lod0
        levels hlod hvalid i hi _ (inSlice_of_row lod0 inp.width i r c hr1 hr2 hc0 hc)).2,
      if_neg (by decide),
      SequencePoolGradKernel.grad_max_entry sqrt inp.data out_g inp.width lod0 inp.dims0 hvalid
        in_g i hi r c hc0 hc, hzero]
  generalize maxCoeff
    (fun q => colMajorMap inp.data (lod0.getD i 0 : Int) inp.width
      ((lod0.getD (i + 1) 0 : Int) - (lod0.getD i 0 : Int)) q c)
    ((lod0.getD (i + 1) 0 : Int) - (lod0.getD i 0 : Int)) = row at hrow hentry
  refine ⟨(SequencePoolGradKernel.grad_slice_entry sqrt inp out_g in_g "MAX" (by decide) lod0
      levels hlod hvalid i hi _
      (inSlice_of_row lod0 inp.width i (lod0.getD i 0) c (le_refl _) hstep hc0 hc)).1, ?_, ?_⟩
  · intro r₁ r₂ h11 h12 h21 h22 hn1 hn2
    rw [hentry r₁ h11 h12] at hn1
    rw [hentry r₂ h21 h22] at hn2
    have e1 : (r₁ : Int) - (lod0.getD i 0 : Int) = row := by
      by_contra hne
      exact hn1 (if_neg hne)
    have e2 : (r₂ : Int) - (lod0.getD i 0 : Int) = row := by
      by_contra hne
      exact hn2 (if_neg hne)
    omega
  · rw [Finset.sum_eq_single (lod0.getD i 0 + row.toNat)]
    · rw [hentry _ (by omega) (by omega), if_pos (by omega)]
    · intro r hr hne
      rw [Finset.mem_Ico] at hr
      rw [hentry r hr.1 hr.2, if_neg (by omega)]
    · intro hnot
      exact absurd (Finset.mem_Ico.mpr ⟨by omega, by omega⟩) hnot

/-- Witness of C17 on the scenario of the specification: offsets `[0, 3]`, rows `[1, 5, 2]`,
`outGrad = [1]` and a zero buffer; the entries of the one column sum to 1. -/
theorem backward_max_conserves_gradient_witness :
    (SequencePoolGradKernel.Compute Real.sqrt (specScenario ℝ) (bufOfList [1]) (fun _ => 0)
        "MAX").state 0 +
      (SequencePoolGradKernel.Compute Real.sqrt (specScenario ℝ) (bufOfList [1]) (fun _ => 0)
        "MAX").state 1 +
      (SequencePoolGradKernel.Compute Real.sqrt (specScenario ℝ) (bufOfList [1]) (fun _ => 0)
        "MAX").state 2 = 1 := by
  have hw3 : (specScenario ℝ).width = 1 := by decide
  have h := (backward_max_conserves_gradient Real.sqrt (specScenario ℝ) (bufOfList [1])
    (fun _ => 0) [0, 3] [] rfl (by decide) (fun _ => rfl) 0 (by decide) 0 (by decide)
    (by decide)).2.2
  simp only [hw3] at h
  norm_num [Finset.sum_Ico_eq_sum_range, Finset.sum_range_succ, bufOfList] at h
  exact h

/-- C18: well-formed input never hits an error branch. For every supported policy and every
input with `total_rows >= 1`, exactly one offsets level and a valid offsets table with every
length at least 1, the divisor `dims[0]` of the width computation is non-zero and the forward
and the gradient kernel both complete without error. For every sequence `i` the row slice
`[offsets[i], offsets[i+1])` lies inside the buffer; the chip rows `0` and `h - 1` and, for
every column, the arg-max row index computed by the gradient kernel lie inside the slice; the
element the arg-max row selects and the elements the arg-max computation reads lie inside the
buffer. -/
theorem wellformed_input_completes (sqrt : α → α) (lowest : α) (inp out : LoDTensor α)
    (out_g in_g : Int → α) (pooltype : String) (hp : pooltype ∈ supportedPoolTypes)
    (lod0 : List Nat) (hlod : inp.lod = [lod0]) (hvalid : ValidOffsets lod0 inp.dims0)
    (hrows : 1 ≤ inp.dims0) :
    inp.dims0 ≠ 0 ∧
    (SequencePoolKernel.Compute sqrt lowest inp out pooltype).failure = none ∧
    (SequencePoolGradKernel.Compute sqrt inp out_g in_g pooltype).failure = none ∧
    ∀ i : Nat, i + 1 < lod0.length →
      ((0 : Int) ≤ (lod0.getD i 0 : Int) ∧ (lod0.getD i 0 : Int) < (lod0.getD (i + 1) 0 : Int) ∧
        (lod0.getD (i + 1) 0 : Int) ≤ inp.dims0) ∧
      ((0 : Int) < (lod0.getD (i + 1) 0 : Int) - (lod0.getD i 0 : Int) ∧
        (0 : Int) ≤ (lod0.getD (i + 1) 0 : Int) - (lod0.getD i 0 : Int) - 1) ∧
      ∀ c : Int, 0 ≤ c → c < inp.width →
        0 ≤ maxCoeff (fun r => colMajorMap inp.data (lod0.getD i 0 : Int) inp.width
            ((lod0.getD (i + 1) 0 : Int) - (lod0.getD i 0 : Int)) r c)
            ((lod0.getD (i + 1) 0 : Int) - (lod0.getD i 0 : Int)) ∧
        maxCoeff (fun r => colMajorMap inp.data (lod0.getD i 0 : Int) inp.width
            ((lod0.getD (i + 1) 0 : Int) - (lod0.getD i 0 : Int)) r c)
            ((lod0.getD (i + 1) 0 : Int) - (lod0.getD i 0 : Int)) <
          (lod0.getD (i + 1) 0 : Int) - (lod0.getD i 0 : Int) ∧
        0 ≤ (lod0.getD i 0 : Int) * inp.width +
          (maxCoeff (fun r => colMajorMap inp.data (lod0.getD i 0 : Int) inp.width
            ((lod0.getD (i + 1) 0 : Int) - (lod0.getD i 0 : Int)) r c)
            ((lod0.getD (i + 1) 0 : Int) - (lod0.getD i 0 : Int)) * inp.width + c) ∧
        (lod0.getD i 0 : Int) * inp.width +
          (maxCoeff (fun r => colMajorMap inp.data (lod0.getD i 0 : Int) inp.width
            ((lod0.getD (i + 1) 0 : Int) - (lod0.getD i 0 : Int)) r c)
            ((lod0.getD (i + 1) 0 : Int) - (lod0.getD i 0 : Int)) * inp.width + c) <
          inp.numel ∧
        ∀ r : Int, 0 ≤ r → r < (lod0.getD (i + 1) 0 : Int) - (lod0.getD i 0 : Int) →
          0 ≤ (lod0.getD i 0 : Int) * inp.width +
            (c * ((lod0.getD (i + 1) 0 : Int) - (lod0.getD i 0 : Int)) + r) ∧
          (lod0.getD i 0 : Int) * inp.width +
            (c * ((lod0.getD (i + 1) 0 : Int) - (lod0.getD i 0 : Int)) + r) < inp.numel := by
  have hd : inp.dims0 ≠ 0 := by omega
  refine ⟨hd, ?_, ?_, ?_⟩
  · rw [SequencePoolKernel.pool_Compute_eq sqrt lowest inp out pooltype lod0 hlod hd
      hvalid.batch_le]
    exact (forLoop_total _ _
      (SequencePoolKernel.pool_body_supported sqrt lowest pooltype hp inp.data inp.width lod0)
      _).1
  · rw [SequencePoolGradKernel.grad_Compute_eq sqrt inp out_g in_g pooltype lod0 [] hlod hd]
    exact (forLoop_total _ _
      (SequencePoolGradKernel.grad_body_supported sqrt pooltype hp inp.data out_g inp.width
        lod0) _).1
  · intro i hi
    have hstep := hvalid.2.1 i (by omega)
    have hle := hvalid.2.2 (i + 1) hi
    refine ⟨⟨by omega, by omega, hle⟩, ⟨by omega, by omega⟩, ?_⟩
    intro c hc0 hc
    have hrow := maxCoeff_range
      (fun r => colMajorMap inp.data (lod0.getD i 0 : Int) inp.width
        ((lod0.getD (i + 1) 0 : Int) - (lod0.getD i 0 : Int)) r c)
      ((lod0.getD (i + 1) 0 : Int) - (lod0.getD i 0 : Int)) (by omega)
    generalize maxCoeff
      (fun r => colMajorMap inp.data (lod0.getD i 0 : Int) inp.width
        ((lod0.getD (i + 1) 0 : Int) - (lod0.getD i 0 : Int)) r c)
      ((lod0.getD (i + 1) 0 : Int) - (lod0.getD i 0 : Int)) = row at hrow
    have hnum : inp.numel = inp.dims0 * inp.width := by
      rw [inp.width_eq hd]; rfl
    have h1 : 0 ≤ (lod0.getD i 0 : Int) * inp.width := mul_nonneg (by omega) (by omega)
    have h2 : 0 ≤ row * inp.width := mul_nonneg hrow.1 (by omega)
    have h3 : ((lod0.getD i 0 : Int) + row) * inp.width + c < inp.dims0 * inp.width :=
      row_index_lt (by omega) hc0 hc
    have h4 : ((lod0.getD i 0 : Int) + row) * inp.width =
        (lod0.getD i 0 : Int) * inp.width + row * inp.width := by ring
    refine ⟨hrow.1, hrow.2, by omega, by omega, ?_⟩
    intro r hr0 hr
    have h5 : 0 ≤ c * ((lod0.getD (i + 1) 0 : Int) - (lod0.getD i 0 : Int)) :=
      mul_nonneg hc0 (by omega)
    have h6 : c * ((lod0.getD (i + 1) 0 : Int) - (lod0.getD i 0 : Int)) + r <
        inp.width * ((lod0.getD (i + 1) 0 : Int) - (lod0.getD i 0 : Int)) :=
      row_index_lt (by omega) hr0 hr
    have h7 : (lod0.getD (i + 1) 0 : Int) * inp.width ≤ inp.dims0 * inp.width :=
      mul_le_mul_of_nonneg_right hle (by omega)
    have h8 : (lod0.getD i 0 : Int) * inp.width +
        inp.width * ((lod0.getD (i + 1) 0 : Int) - (lod0.getD i 0 : Int)) =
        (lod0.getD (i + 1) 0 : Int) * inp.width := by ring
    constructor <;> omega

/-- Witness of C18 on the multi-sequence scenario of the specification: offsets `[0, 2, 5]` over
five rows; both kernels complete for MAX. -/
theorem wellformed_input_completes_witness :
    (SequencePoolKernel.Compute Real.sqrt 0 (multiScenario ℝ) (blankOut ℝ) "MAX").failure = none ∧
    (SequencePoolGradKernel.Compute Real.sqrt (multiScenario ℝ) (bufOfList [1, 1]) (fun _ => 0)
      "MAX").failure = none := by
  have h := wellformed_input_completes Real.sqrt 0 (multiScenario ℝ) (blankOut ℝ)
    (bufOfList [1, 1]) (fun _ => 0) "MAX" (by decide) [0, 2, 5] rfl (by decide) (by decide)
  exact ⟨h.2.1, h.2.2.1⟩

end Proofs

end paddle.operators
